import Mathlib

/-!
Verification of the build orchestration script (src/build.py) of
malunal-studios/malunal.tooling: a command line front end that parses five
optional flags, optionally issues a CMake configure invocation, and always
issues a CMake build invocation, streaming child output line by line.

The embedding models:
  - the argparse command line parser exactly as instantiated by the script
    (four store true flags, a threads option with nargs question mark and
    default 1, and the automatically added help option), including long
    option prefix abbreviation, equals sign values, short option clusters,
    the negative number and embedded space rules argparse uses to decide
    whether a token can serve as an option value, deferred reporting of
    unrecognized tokens, and the help action exiting successfully;
  - the construction of the configure and build argument lists and their
    space joined shell command lines;
  - a run of the script as a list of events (subprocess invocation,
    printed output line), parameterised by the behaviour of the two
    possible child processes.
-/

namespace BuildScript

/-- Value of the parsed threads destination: the Python int 1 default,
Python None (flag given without a count), or a string value. -/
inductive ThreadsVal where
  | intDefault
  | pyNone
  | str (s : String)
  deriving DecidableEq, Repr

/-- Python str of the threads value, as interpolated by the f string that
builds the j option in src/build.py line 92. -/
def ThreadsVal.pyStr : ThreadsVal → String
  | ThreadsVal.intDefault => "1"
  | ThreadsVal.pyNone => "None"
  | ThreadsVal.str s => s

/-- The parsed command line values: the argparse destinations configure,
release, install, threads and example from src/build.py lines 6 to 58
(the example destination is called exampleFlag here because example is a
Lean keyword). -/
structure Config where
  configure : Bool
  release : Bool
  install : Bool
  threads : ThreadsVal
  exampleFlag : Bool
  deriving DecidableEq, Repr

/-- The configuration before any token is processed: every store true flag
defaults to False and threads defaults to the int 1. -/
def initConfig : Config :=
  { configure := false, release := false, install := false,
    threads := ThreadsVal.intDefault, exampleFlag := false }

/-- Outcome of parse_args: a configuration, a successful exit after
printing help (exit status 0), or a usage error (argparse prints its usage
message and the error and exits with status 2). In the two exit outcomes
the script body after parse_args never runs, so no subprocess starts. -/
inductive ParseOutcome where
  | ok (cfg : Config)
  | helpExit
  | usageError (msg : String)
  deriving DecidableEq, Repr

/-- Long option strings registered on the parser, the automatically added
help option first. -/
def longNames : List String :=
  ["--help", "--configure", "--release", "--install", "--threads", "--include-example"]

/-- Splits a char list at the first equals sign, the way argparse splits an
option=value token. -/
def splitAtEq : List Char → List Char × Option (List Char)
  | [] => ([], none)
  | c :: rest =>
    if c = '=' then ([], some rest)
    else
      let p := splitAtEq rest
      (c :: p.1, p.2)

/-- Matches the regular expression argparse uses to recognise tokens that
look like negative numbers (a dash followed by digits, or by digits, a dot
and more digits). -/
def isNegNumChars : List Char → Bool
  | '-' :: rest =>
    (decide (rest ≠ []) && rest.all (fun c => c.isDigit)) ||
      (match rest.dropWhile (fun c => c.isDigit) with
       | '.' :: frac => decide (frac ≠ []) && frac.all (fun c => c.isDigit)
       | _ => false)
  | _ => false

/-- One zero argument action triggered from inside a short option cluster:
a store true flag or the help action. -/
inductive ShortAct where
  | setc
  | setr
  | seti
  | seth
  deriving DecidableEq, Repr

/-- How a short option cluster ends: with flags only, with the threads
option pending a lookahead, or with the threads option taking the rest of
the token as its attached value. -/
inductive ClusterEnd where
  | plain
  | pending
  | attached (v : String)
  deriving DecidableEq, Repr

/-- Result of reading a single dash token char by char: the first char is
not a known option char (argparse then treats the whole token as an
unrecognized extra, reported only at the end of parsing), a later char is
not a known option char (argparse raises an ignored explicit argument
error immediately), or a list of zero argument actions with an ending. -/
inductive ClusterParse where
  | notOption
  | badChar
  | acts (as : List ShortAct) (e : ClusterEnd)
  deriving DecidableEq, Repr

/-- The zero argument short option chars of the parser. -/
def clusterChar (c : Char) : Option ShortAct :=
  if c = 'c' then some ShortAct.setc
  else if c = 'r' then some ShortAct.setr
  else if c = 'i' then some ShortAct.seti
  else if c = 'h' then some ShortAct.seth
  else none

/-- Reads the chars of a single dash token after the dash, from any
position: a run of zero argument option chars, optionally ended by the
threads char which either takes the rest of the token as its value or is
left pending a lookahead. An unknown char fails the whole token. -/
def parseClusterRest : List Char → Option (List ShortAct × ClusterEnd)
  | [] => some ([], ClusterEnd.plain)
  | ch :: rest =>
    if ch = 't' then
      if rest = [] then some ([], ClusterEnd.pending)
      else some ([], ClusterEnd.attached (String.mk rest))
    else
      match clusterChar ch with
      | some a => (parseClusterRest rest).map (fun p => (a :: p.1, p.2))
      | none => none

/-- Reads a whole single dash token (chars after the dash), distinguishing
an unknown first char (extra token, deferred report) from an unknown later
char (immediate error). -/
def parseCluster (cs : List Char) : ClusterParse :=
  match cs with
  | [] => ClusterParse.notOption
  | ch :: _ =>
    if ch = 't' ∨ (clusterChar ch).isSome then
      match parseClusterRest cs with
      | some p => ClusterParse.acts p.1 p.2
      | none => ClusterParse.badChar
    else ClusterParse.notOption

/-- Applies the zero argument actions of a short option cluster in order;
none means the help action ran, printing help and exiting the process. -/
def applyActs : Config → List ShortAct → Option Config
  | cfg, [] => some cfg
  | _, ShortAct.seth :: _ => none
  | cfg, ShortAct.setc :: rest => applyActs { cfg with configure := true } rest
  | cfg, ShortAct.setr :: rest => applyActs { cfg with release := true } rest
  | cfg, ShortAct.seti :: rest => applyActs { cfg with install := true } rest

/-- Sets the destination of a matched store true long option. -/
def setLongFlag (n : String) (cfg : Config) : Config :=
  if n = "--configure" then { cfg with configure := true }
  else if n = "--release" then { cfg with release := true }
  else if n = "--install" then { cfg with install := true }
  else { cfg with exampleFlag := true }

/-- Registered long options having the given token (up to its equals sign)
as a prefix: argparse accepts any unambiguous abbreviation. -/
def longCandidates (name : List Char) : List String :=
  longNames.filter (fun n => name.isPrefixOf n.data)

/-- A token argparse marks as an option rather than as a value for the
threads option: a lone double dash, a double dash token whose part before
any equals sign abbreviates some registered long option, a single dash
token whose first char is a registered short option char, or any other
dash initial token of at least two chars that is neither a negative number
nor contains a space (such a token is an unrecognized option, still marked
as an option). -/
def looksLikeOption (t : String) : Bool :=
  match t.data with
  | '-' :: '-' :: [] => true
  | '-' :: '-' :: c0 :: cs =>
    decide (longCandidates (splitAtEq ('-' :: '-' :: c0 :: cs)).1 ≠ []) ||
      (!isNegNumChars t.data && !t.data.contains ' ')
  | '-' :: c0 :: _ =>
    (decide (c0 = 't') || (clusterChar c0).isSome) ||
      (!isNegNumChars t.data && !t.data.contains ' ')
  | _ => false

/-- A token whose part before any equals sign abbreviates two or more
registered long options: argparse raises the ambiguous option error for
such a token while marking the token pattern, before any action runs. -/
def ambiguousToken (t : String) : Bool :=
  match t.data with
  | '-' :: '-' :: c0 :: cs =>
    decide (2 ≤ (longCandidates (splitAtEq ('-' :: '-' :: c0 :: cs)).1).length)
  | _ => false

/-- Models parse_args of the parser built in src/build.py lines 6 to 58 on
a token list: long options with unique prefix abbreviation and optional
equals values, short options singly or in clusters, the threads option
with nargs question mark consuming a following non option token, the
automatically added help option exiting successfully, ambiguous options
failing immediately, explicit equals arguments to the zero argument short
options re parsed as further cluster chars (so -c=r acts like -cr and
-c=h runs the help action, while an empty or unreadable explicit argument
is an immediate ignored explicit argument error, as it always is for the
long store true options), and unrecognized or positional tokens collected
and reported as a usage error when parsing ends (the extras flag records
that such a token was seen). -/
def finishParse (cfg : Config) (extras : Bool) : ParseOutcome :=
  if extras then ParseOutcome.usageError "unrecognized arguments"
  else ParseOutcome.ok cfg

def parseLoop : List String → Config → Bool → ParseOutcome
  | [], cfg, extras => finishParse cfg extras
  | tok :: rest, cfg, extras =>
    match tok.data with
    | '-' :: '-' :: [] => ParseOutcome.usageError "unrecognized arguments"
    | '-' :: '-' :: c0 :: cs =>
      let p := splitAtEq ('-' :: '-' :: c0 :: cs)
      match longCandidates p.1 with
      | [n] =>
        if n = "--threads" then
          match p.2 with
          | some v => parseLoop rest { cfg with threads := ThreadsVal.str (String.mk v) } extras
          | none =>
            match rest with
            | [] => finishParse { cfg with threads := ThreadsVal.pyNone } extras
            | nxt :: rest2 =>
              if looksLikeOption nxt then
                parseLoop (nxt :: rest2) { cfg with threads := ThreadsVal.pyNone } extras
              else parseLoop rest2 { cfg with threads := ThreadsVal.str nxt } extras
        else if n = "--help" then
          match p.2 with
          | some _ => ParseOutcome.usageError "ignored explicit argument"
          | none => ParseOutcome.helpExit
        else
          match p.2 with
          | some _ => ParseOutcome.usageError "ignored explicit argument"
          | none => parseLoop rest (setLongFlag n cfg) extras
      | [] => parseLoop rest cfg true
      | _ :: _ :: _ => ParseOutcome.usageError "ambiguous option"
    | '-' :: c0 :: cs =>
      let p := splitAtEq ('-' :: c0 :: cs)
      match p.2 with
      | some v =>
        if p.1 = ['-', 't'] then
          parseLoop rest { cfg with threads := ThreadsVal.str (String.mk v) } extras
        else if p.1 = ['-', 'c'] ∨ p.1 = ['-', 'r'] ∨ p.1 = ['-', 'i'] ∨ p.1 = ['-', 'h'] then
          if v = [] then ParseOutcome.usageError "ignored explicit argument"
          else
            match parseCluster (c0 :: v) with
            | ClusterParse.notOption => parseLoop rest cfg true
            | ClusterParse.badChar => ParseOutcome.usageError "ignored explicit argument"
            | ClusterParse.acts as e =>
              match applyActs cfg as with
              | none => ParseOutcome.helpExit
              | some cfg2 =>
                match e with
                | ClusterEnd.plain => parseLoop rest cfg2 extras
                | ClusterEnd.attached v2 =>
                  parseLoop rest { cfg2 with threads := ThreadsVal.str v2 } extras
                | ClusterEnd.pending =>
                  match rest with
                  | [] => finishParse { cfg2 with threads := ThreadsVal.pyNone } extras
                  | nxt :: rest2 =>
                    if looksLikeOption nxt then
                      parseLoop (nxt :: rest2) { cfg2 with threads := ThreadsVal.pyNone } extras
                    else parseLoop rest2 { cfg2 with threads := ThreadsVal.str nxt } extras
        else
          match parseCluster (c0 :: cs) with
          | ClusterParse.notOption => parseLoop rest cfg true
          | ClusterParse.badChar => ParseOutcome.usageError "ignored explicit argument"
          | ClusterParse.acts as e =>
            match applyActs cfg as with
            | none => ParseOutcome.helpExit
            | some cfg2 =>
              match e with
              | ClusterEnd.plain => parseLoop rest cfg2 extras
              | ClusterEnd.attached v2 =>
                parseLoop rest { cfg2 with threads := ThreadsVal.str v2 } extras
              | ClusterEnd.pending =>
                match rest with
                | [] => finishParse { cfg2 with threads := ThreadsVal.pyNone } extras
                | nxt :: rest2 =>
                  if looksLikeOption nxt then
                    parseLoop (nxt :: rest2) { cfg2 with threads := ThreadsVal.pyNone } extras
                  else parseLoop rest2 { cfg2 with threads := ThreadsVal.str nxt } extras
      | none =>
        match parseCluster (c0 :: cs) with
        | ClusterParse.notOption => parseLoop rest cfg true
        | ClusterParse.badChar => ParseOutcome.usageError "ignored explicit argument"
        | ClusterParse.acts as e =>
          match applyActs cfg as with
          | none => ParseOutcome.helpExit
          | some cfg2 =>
            match e with
            | ClusterEnd.plain => parseLoop rest cfg2 extras
            | ClusterEnd.attached v2 =>
              parseLoop rest { cfg2 with threads := ThreadsVal.str v2 } extras
            | ClusterEnd.pending =>
              match rest with
              | [] => finishParse { cfg2 with threads := ThreadsVal.pyNone } extras
              | nxt :: rest2 =>
                if looksLikeOption nxt then
                  parseLoop (nxt :: rest2) { cfg2 with threads := ThreadsVal.pyNone } extras
                else parseLoop rest2 { cfg2 with threads := ThreadsVal.str nxt } extras
    | _ => parseLoop rest cfg true

/-- Parsing of the full command line: argparse first marks every token up
to the first double dash, raising the ambiguous option error there before
any action runs, then consumes the tokens from the defaults with no extra
tokens seen. -/
def parseArgs (argv : List String) : ParseOutcome :=
  if (argv.takeWhile (fun t => t ≠ "--")).any ambiguousToken then
    ParseOutcome.usageError "ambiguous option"
  else parseLoop argv initConfig false

/-- A token that is an unrecognized flag: it is marked as an option (dash
initial, not a negative number, no embedded space for the unknown forms)
but matches no registered option, neither as a long option abbreviation
nor through its first short option char. -/
def unrecognizedFlag (t : String) : Bool :=
  looksLikeOption t &&
    (match t.data with
     | '-' :: '-' :: [] => false
     | '-' :: '-' :: c0 :: cs =>
       decide (longCandidates (splitAtEq ('-' :: '-' :: c0 :: cs)).1 = [])
     | '-' :: c0 :: _ => !(decide (c0 = 't') || (clusterChar c0).isSome)
     | _ => false)

/-- A token whose consumption runs the help action: a long token uniquely
abbreviating the help option and carrying no equals value, or a short
cluster that reads fully and mentions the help char, where for a zero
argument short option with an explicit equals value the cluster read
continues into that value (so -c=h and -h=c both run the help action). -/
def tokenTriggersHelp (t : String) : Bool :=
  match t.data with
  | '-' :: '-' :: [] => false
  | '-' :: '-' :: c0 :: cs =>
    decide (longCandidates (splitAtEq ('-' :: '-' :: c0 :: cs)).1 = ["--help"]) &&
      (splitAtEq ('-' :: '-' :: c0 :: cs)).2.isNone
  | '-' :: c0 :: cs =>
    match (splitAtEq ('-' :: c0 :: cs)).2 with
    | some v =>
      if (splitAtEq ('-' :: c0 :: cs)).1 = ['-', 't'] then false
      else if (splitAtEq ('-' :: c0 :: cs)).1 = ['-', 'c'] ∨
          (splitAtEq ('-' :: c0 :: cs)).1 = ['-', 'r'] ∨
          (splitAtEq ('-' :: c0 :: cs)).1 = ['-', 'i'] ∨
          (splitAtEq ('-' :: c0 :: cs)).1 = ['-', 'h'] then
        if v = [] then false
        else
          match parseCluster (c0 :: v) with
          | ClusterParse.acts as _ => decide (ShortAct.seth ∈ as)
          | _ => false
      else
        match parseCluster (c0 :: cs) with
        | ClusterParse.acts as _ => decide (ShortAct.seth ∈ as)
        | _ => false
    | none =>
      match parseCluster (c0 :: cs) with
      | ClusterParse.acts as _ => decide (ShortAct.seth ∈ as)
      | _ => false
  | _ => false

/-- A token carrying a malformed explicit or attached value, rejected by
argparse with an immediate ignored explicit argument error: an equals
value on a long token uniquely abbreviating a store true (or the help)
long option, or an equals value on a zero argument short option that is
empty or whose cluster re parse hits an unknown char, or a short cluster
whose read hits an unknown char after a known first char. -/
def malformedValueToken (t : String) : Bool :=
  match t.data with
  | '-' :: '-' :: [] => false
  | '-' :: '-' :: c0 :: cs =>
    (splitAtEq ('-' :: '-' :: c0 :: cs)).2.isSome &&
      (match longCandidates (splitAtEq ('-' :: '-' :: c0 :: cs)).1 with
       | [n] => decide (n ≠ "--threads")
       | _ => false)
  | '-' :: c0 :: cs =>
    match (splitAtEq ('-' :: c0 :: cs)).2 with
    | some v =>
      if (splitAtEq ('-' :: c0 :: cs)).1 = ['-', 't'] then false
      else if (splitAtEq ('-' :: c0 :: cs)).1 = ['-', 'c'] ∨
          (splitAtEq ('-' :: c0 :: cs)).1 = ['-', 'r'] ∨
          (splitAtEq ('-' :: c0 :: cs)).1 = ['-', 'i'] ∨
          (splitAtEq ('-' :: c0 :: cs)).1 = ['-', 'h'] then
        if v = [] then true
        else decide (parseCluster (c0 :: v) = ClusterParse.badChar)
      else decide (parseCluster (c0 :: cs) = ClusterParse.badChar)
    | none => decide (parseCluster (c0 :: cs) = ClusterParse.badChar)
  | _ => false

/-- A token that can touch the threads destination: any long token
starting with the three chars dash dash t (every abbreviation of the
threads long option, with or without an equals value, starts this way),
or any single dash token (second char not a dash) containing the char t
(every short cluster mentioning the threads option does, also through an
explicit equals argument re parsed as cluster chars). This
overapproximates among the dash initial tokens, which only strengthens
the hypotheses it appears in, while marking no other long token. -/
def threadsRelated (t : String) : Bool :=
  "--t".data.isPrefixOf t.data ||
    (match t.data with
     | '-' :: c0 :: cs => !(decide (c0 = '-')) && ('-' :: c0 :: cs).contains 't'
     | _ => false)

/-- Space join of a token list, as the Python join expression applied to
the arguments list before handing it to the shell. -/
def joinSpace : List String → String
  | [] => ""
  | [x] => x
  | x :: y :: xs => x ++ " " ++ joinSpace (y :: xs)

/-- Tokens of the configure invocation, mirroring src/build.py lines 61 to
76: cmake_options starts from the env prefixed cmake generator call, the
build type starts as Debug and becomes Release when the release flag is
set, the example define is appended only when the example flag is set, and
the source and build directories are appended last. -/
def configureArgs (clargs : Config) : List String :=
  let build_type : String := if clargs.release = true then "Release" else "Debug"
  let cmake_options : List String :=
    ["cmake", "-E", "env", "CLICOLOR_FORCE=1", "cmake", "-G", "\"Unix Makefiles\""]
      ++ ["-DCMAKE_BUILD_TYPE=" ++ build_type]
      ++ (if clargs.exampleFlag = true then ["-DMALUNAL_TOOLING_BUILD_EXAMPLE=ON"] else [])
  cmake_options ++ ["-S", ".", "-B", "build"]

/-- Tokens of the build invocation, mirroring src/build.py lines 90 to 93:
the env prefixed cmake build call with the j option interpolating the
Python str of the threads value. -/
def buildArgs (clargs : Config) : List String :=
  ["cmake", "-E", "env", "CLICOLOR_FORCE=1", "cmake", "--build", "build", "--",
    "-j" ++ clargs.threads.pyStr]

/-- The space joined shell command line of the configure invocation. -/
def configureCmdline (clargs : Config) : String :=
  joinSpace (configureArgs clargs)

/-- The space joined shell command line of the build invocation. -/
def buildCmdline (clargs : Config) : String :=
  joinSpace (buildArgs clargs)

/-- A subprocess invocation, tagged by which of the two Popen call sites
issued it (src/build.py lines 77 and 94), carrying the space joined
command line handed to the shell. -/
inductive Invocation where
  | configure (cmdline : String)
  | build (cmdline : String)
  deriving DecidableEq, Repr

/-- Behaviour of one child process: the lines it writes to the combined
stdout and stderr pipe, and its exit status. -/
structure Child where
  outputLines : List String
  exitCode : Int
  deriving DecidableEq, Repr

/-- An observable step of the script: starting a subprocess or printing
one line of its output. -/
inductive Event where
  | invoked (inv : Invocation)
  | printed (line : String)
  deriving DecidableEq, Repr

/-- Python rstrip of trailing newline chars, applied to each streamed
line before printing it. -/
def rstripNewline (s : String) : String :=
  String.mk ((s.data.reverse.dropWhile (fun c => c = '\n')).reverse)

/-- One Popen call site: the with block starts the child, streams each of
its output lines (right stripped of newlines) to the console as it
arrives, and waits for the child to exit before the block ends. The exit
status of the child is never read by the script. -/
def popenStream (inv : Invocation) (child : Child) : List Event :=
  Event.invoked inv :: child.outputLines.map (fun l => Event.printed (rstripNewline l))

/-- Result of a run of the script body: its observable events and the exit
status of the Python interpreter. -/
structure RunResult where
  events : List Event
  wrapperExit : Int
  deriving DecidableEq, Repr

/-- Predicate picking out build invocation events. -/
def isBuildInvoke : Event → Bool
  | Event.invoked (Invocation.build _) => true
  | _ => false

/-- The script body after parse_args (src/build.py lines 60 to 103), given
the behaviour of the child process of each of the two call sites: when the
configure flag is set the configure invocation runs and its output is
streamed to completion, then the arguments list is cleared and the build
invocation always runs. The script never inspects a child exit status,
raises nothing and calls no exit function, so the interpreter exits with
status 0. -/
def runScript (clargs : Config) (configureChild buildChild : Child) : RunResult :=
  { events :=
      (if clargs.configure = true then
        popenStream (Invocation.configure (configureCmdline clargs)) configureChild
      else [])
        ++ popenStream (Invocation.build (buildCmdline clargs)) buildChild,
    wrapperExit := 0 }

/-- A whole run of the script: parse_args first, which on a usage error
prints the usage message and exits with status 2 before any subprocess,
and on the help action prints the help text and exits with status 0 before
any subprocess; otherwise the script body runs. -/
def scriptRun (argv : List String) (configureChild buildChild : Child) : RunResult :=
  match parseArgs argv with
  | ParseOutcome.ok clargs => runScript clargs configureChild buildChild
  | ParseOutcome.helpExit => { events := [], wrapperExit := 0 }
  | ParseOutcome.usageError _ => { events := [], wrapperExit := 2 }

/-- The events of a whole run. -/
def mainEvents (argv : List String) (configureChild buildChild : Child) : List Event :=
  (scriptRun argv configureChild buildChild).events

/-- Predicate picking out the arguments that set the CMake build type. -/
def isBuildTypeArg (a : String) : Bool :=
  "-DCMAKE_BUILD_TYPE=".data.isPrefixOf a.data

/-- A release mode configuration used to instantiate claims at a concrete
input. -/
def cfgRelease : Config :=
  { configure := true, release := true, install := false,
    threads := ThreadsVal.intDefault, exampleFlag := false }

/-- An example enabled configuration used to instantiate claims at a
concrete input. -/
def cfgExample : Config :=
  { configure := true, release := false, install := false,
    threads := ThreadsVal.intDefault, exampleFlag := true }

/-- A child process with no output used to instantiate claims at a
concrete input. -/
def childNull : Child := { outputLines := [], exitCode := 0 }

theorem countP_printed_zero (ls : List String) :
    (ls.map (fun l => Event.printed (rstripNewline l))).countP isBuildInvoke = 0 := by
  rw [List.countP_eq_zero]
  intro a ha
  rcases List.mem_map.mp ha with ⟨l, _, rfl⟩
  simp [isBuildInvoke]

theorem countP_popen_configure (s : String) (c : Child) :
    (popenStream (Invocation.configure s) c).countP isBuildInvoke = 0 := by
  rw [popenStream, List.countP_cons]
  simp [countP_printed_zero, isBuildInvoke]

theorem countP_popen_build (s : String) (c : Child) :
    (popenStream (Invocation.build s) c).countP isBuildInvoke = 1 := by
  rw [popenStream, List.countP_cons]
  simp [countP_printed_zero, isBuildInvoke]

/-- Claim C1: for every valid combination of command line flags, the
configure subprocess invocation is issued if and only if the configure
flag is set; when the flag is not set, no configure invocation occurs in
the run. -/
theorem configure_invocation_iff_flag (clargs : Config) (cc bc : Child) :
    (∃ s, Event.invoked (Invocation.configure s) ∈ (runScript clargs cc bc).events) ↔
      clargs.configure = true := by
  cases hc : clargs.configure
  · simp only [runScript, hc, Bool.false_eq_true, if_false, List.nil_append, popenStream]
    constructor
    · rintro ⟨s, hs⟩
      rcases List.mem_cons.mp hs with h | h
      · exact absurd h (by simp)
      · rcases List.mem_map.mp h with ⟨l, _, heq⟩
        exact absurd heq (by simp)
    · intro h
      exact absurd h (by simp)
  · simp only [runScript, hc, if_true]
    exact iff_of_true
      ⟨configureCmdline clargs,
        List.mem_append_left _ (by simp [popenStream])⟩ trivial

/-- Claim C2: for every valid combination of command line flags, the build
invocation is issued exactly once per run, and the whole configure
invocation together with all of its streamed output precedes the build
invocation: the event list splits into the configure block followed by the
build block. -/
theorem build_invocation_once_after_configure (clargs : Config) (cc bc : Child) :
    ((runScript clargs cc bc).events.countP isBuildInvoke) = 1 ∧
    ∃ k, (runScript clargs cc bc).events.take k =
        (if clargs.configure = true then
          popenStream (Invocation.configure (configureCmdline clargs)) cc
        else []) ∧
      (runScript clargs cc bc).events.drop k =
        popenStream (Invocation.build (buildCmdline clargs)) bc := by
  constructor
  · show ((if clargs.configure = true then _ else []) ++ _).countP isBuildInvoke = 1
    rw [List.countP_append, countP_popen_build]
    cases hc : clargs.configure
    · simp [hc]
    · simp [hc, countP_popen_configure]
  · exact ⟨(if clargs.configure = true then
        popenStream (Invocation.configure (configureCmdline clargs)) cc
      else []).length,
      List.take_left _ _, List.drop_left _ _⟩

/-- Claim C3: whenever the configure invocation is issued, its command
line is the space join of the configure arguments, and the build type
argument among those arguments is exactly the string selecting Release
when the release flag is set and Debug otherwise. -/
theorem configure_build_type_argument (clargs : Config) (cc bc : Child) (s : String)
    (h : Event.invoked (Invocation.configure s) ∈ (runScript clargs cc bc).events) :
    s = configureCmdline clargs ∧
    (configureArgs clargs).filter isBuildTypeArg =
      [if clargs.release = true then "-DCMAKE_BUILD_TYPE=Release"
       else "-DCMAKE_BUILD_TYPE=Debug"] := by
  constructor
  · cases hc : clargs.configure
    · rw [runScript] at h
      simp [hc, popenStream] at h
    · rw [runScript] at h
      simp only [hc, if_true, popenStream, List.mem_append, List.mem_cons,
        List.mem_map] at h
      rcases h with (h | ⟨l, _, h⟩) | (h | ⟨l, _, h⟩)
      · exact (Invocation.configure.injEq _ _ ▸ (Event.invoked.injEq _ _ ▸ h) : s = _)
      · exact absurd h (by simp)
      · exact absurd h (by simp)
      · exact absurd h (by simp)
  · cases hr : clargs.release <;> cases he : clargs.exampleFlag <;>
      simp only [configureArgs, hr, he] <;> decide

/-- Witness for claim C3 at a concrete release mode run. -/
theorem configure_build_type_argument_witness :
    ("cmake -E env CLICOLOR_FORCE=1 cmake -G \"Unix Makefiles\" -DCMAKE_BUILD_TYPE=Release -S . -B build" =
        configureCmdline cfgRelease) ∧
    (configureArgs cfgRelease).filter isBuildTypeArg =
      [if cfgRelease.release = true then "-DCMAKE_BUILD_TYPE=Release"
       else "-DCMAKE_BUILD_TYPE=Debug"] :=
  configure_build_type_argument cfgRelease childNull childNull _ (by decide)

/-- Claim C5: whenever the configure invocation is issued, its command
line is the space join of the configure arguments, and the example enable
define occurs among those arguments if and only if the example flag is
set. -/
theorem configure_example_argument (clargs : Config) (cc bc : Child) (s : String)
    (h : Event.invoked (Invocation.configure s) ∈ (runScript clargs cc bc).events) :
    s = configureCmdline clargs ∧
    ("-DMALUNAL_TOOLING_BUILD_EXAMPLE=ON" ∈ configureArgs clargs ↔
      clargs.exampleFlag = true) := by
  constructor
  · cases hc : clargs.configure
    · rw [runScript] at h
      simp [hc, popenStream] at h
    · rw [runScript] at h
      simp only [hc, if_true, popenStream, List.mem_append, List.mem_cons,
        List.mem_map] at h
      rcases h with (h | ⟨l, _, h⟩) | (h | ⟨l, _, h⟩)
      · exact (Invocation.configure.injEq _ _ ▸ (Event.invoked.injEq _ _ ▸ h) : s = _)
      · exact absurd h (by simp)
      · exact absurd h (by simp)
      · exact absurd h (by simp)
  · cases hr : clargs.release <;> cases he : clargs.exampleFlag <;>
      simp only [configureArgs, hr, he] <;> decide

/-- Witness for claim C5 at a concrete example enabled run. -/
theorem configure_example_argument_witness :
    ("cmake -E env CLICOLOR_FORCE=1 cmake -G \"Unix Makefiles\" -DCMAKE_BUILD_TYPE=Debug -DMALUNAL_TOOLING_BUILD_EXAMPLE=ON -S . -B build" =
        configureCmdline cfgExample) ∧
    ("-DMALUNAL_TOOLING_BUILD_EXAMPLE=ON" ∈ configureArgs cfgExample ↔
      cfgExample.exampleFlag = true) :=
  configure_example_argument cfgExample childNull childNull _ (by decide)

/-- Claim C6: the exit status of a child process is never inspected: the
whole run result is unchanged under any change of the child exit statuses,
the build invocation is still issued after a configure invocation whatever
status the configure child returned, and the wrapper always exits with
status 0 rather than mirroring a child status. -/
theorem child_status_not_handled (clargs : Config) (lc lb : List String)
    (e1 e2 f1 f2 : Int) :
    runScript clargs { outputLines := lc, exitCode := e1 }
        { outputLines := lb, exitCode := e2 } =
      runScript clargs { outputLines := lc, exitCode := f1 }
        { outputLines := lb, exitCode := f2 } ∧
    Event.invoked (Invocation.build (buildCmdline clargs)) ∈
      (runScript clargs { outputLines := lc, exitCode := e1 }
        { outputLines := lb, exitCode := e2 }).events ∧
    (runScript clargs { outputLines := lc, exitCode := e1 }
      { outputLines := lb, exitCode := e2 }).wrapperExit = 0 := by
  refine ⟨rfl, ?_, rfl⟩
  exact List.mem_append_right _ (by simp [popenStream])

theorem splitAtEq_fst_prefix : ∀ cs : List Char, (splitAtEq cs).1 <+: cs := by
  intro cs
  induction cs with
  | nil => simp [splitAtEq]
  | cons c rest ih =>
    by_cases hc : c = '='
    · simp [splitAtEq, hc]
    · simp only [splitAtEq, if_neg hc]
      exact (List.cons_prefix_cons).mpr ⟨rfl, ih⟩

theorem setLongFlag_threads (n : String) (cfg : Config) :
    (setLongFlag n cfg).threads = cfg.threads := by
  rw [setLongFlag]
  split_ifs <;> rfl

theorem applyActs_some_threads : ∀ (as : List ShortAct) (cfg cfg2 : Config),
    applyActs cfg as = some cfg2 → cfg2.threads = cfg.threads := by
  intro as
  induction as with
  | nil =>
    intro cfg cfg2 h
    simp only [applyActs] at h
    cases h
    rfl
  | cons a rest ih =>
    intro cfg cfg2 h
    cases a
    · simp only [applyActs] at h
      exact ih { cfg with configure := true } _ h
    · simp only [applyActs] at h
      exact ih { cfg with release := true } _ h
    · simp only [applyActs] at h
      exact ih { cfg with install := true } _ h
    · exact absurd h (by simp [applyActs])

theorem applyActs_none_mem : ∀ (as : List ShortAct) (cfg : Config),
    applyActs cfg as = none → ShortAct.seth ∈ as := by
  intro as
  induction as with
  | nil =>
    intro cfg h
    simp [applyActs] at h
  | cons a rest ih =>
    intro cfg h
    cases a
    · simp only [applyActs] at h
      exact List.mem_cons_of_mem _ (ih _ h)
    · simp only [applyActs] at h
      exact List.mem_cons_of_mem _ (ih _ h)
    · simp only [applyActs] at h
      exact List.mem_cons_of_mem _ (ih _ h)
    · exact List.mem_cons_self _ _

theorem parseClusterRest_t_mem : ∀ (cs : List Char) (as : List ShortAct) (e : ClusterEnd),
    parseClusterRest cs = some (as, e) → e ≠ ClusterEnd.plain → 't' ∈ cs := by
  intro cs
  induction cs with
  | nil =>
    intro as e h hne
    simp only [parseClusterRest] at h
    cases h
    exact absurd rfl hne
  | cons c rest ih =>
    intro as e h hne
    by_cases hct : c = 't'
    · exact hct ▸ List.mem_cons_self _ _
    · simp only [parseClusterRest, if_neg hct] at h
      cases hcc : clusterChar c
      · rw [hcc] at h
        simp at h
      · rw [hcc] at h
        rcases Option.map_eq_some'.mp h with ⟨p, hp, heq⟩
        have hpe : p.2 = e := congrArg Prod.snd heq
        exact List.mem_cons_of_mem _ (ih p.1 p.2 (by simpa using hp) (hpe ▸ hne))

theorem parseCluster_acts : ∀ (c0 : Char) (cs : List Char) (as : List ShortAct) (e : ClusterEnd),
    parseCluster (c0 :: cs) = ClusterParse.acts as e →
    (decide (c0 = 't') || (clusterChar c0).isSome) = true ∧
      parseClusterRest (c0 :: cs) = some (as, e) := by
  intro c0 cs as e h
  rw [parseCluster] at h
  split at h
  · rename_i hcond
    constructor
    · rcases hcond with hc | hc
      · simp [hc]
      · simp [hc]
    · split at h
      · rename_i p hp
        cases h
        exact hp
      · exact absurd h (by simp)
  · exact absurd h (by simp)

theorem not_option_not_unrecognized (t : String) (h : looksLikeOption t = false) :
    unrecognizedFlag t = false := by
  rw [unrecognizedFlag, h]
  rfl

theorem cand_threads_c0 (c0 : Char) (cs : List Char)
    (h : longCandidates (splitAtEq ('-' :: '-' :: c0 :: cs)).1 = ["--threads"]) :
    c0 = 't' := by
  by_cases hc : c0 = '='
  · subst hc
    rw [show splitAtEq ('-' :: '-' :: '=' :: cs) = (['-', '-'], some cs) from by
      simp [splitAtEq]] at h
    rw [show longCandidates ['-', '-'] = longNames from by decide] at h
    exact absurd h (by decide)
  · rw [show splitAtEq ('-' :: '-' :: c0 :: cs) =
        ('-' :: '-' :: c0 :: (splitAtEq cs).1, (splitAtEq cs).2) from by
      simp [splitAtEq, hc]] at h
    have hmem : "--threads" ∈
        longNames.filter (fun n => ('-' :: '-' :: c0 :: (splitAtEq cs).1).isPrefixOf n.data) := by
      rw [show longNames.filter
          (fun n => ('-' :: '-' :: c0 :: (splitAtEq cs).1).isPrefixOf n.data) =
            longCandidates ('-' :: '-' :: c0 :: (splitAtEq cs).1) from rfl, h]
      exact List.mem_singleton_self _
    have hpred := (List.mem_filter.mp hmem).2
    rw [show ("--threads" : String).data =
        ['-', '-', 't', 'h', 'r', 'e', 'a', 'd', 's'] from rfl] at hpred
    simp only [List.isPrefixOf, Bool.and_eq_true, beq_iff_eq] at hpred
    exact hpred.2.2.1

theorem long_threads_related (t : String) (c0 : Char) (cs : List Char)
    (hd : t.data = '-' :: '-' :: c0 :: cs)
    (h : longCandidates (splitAtEq ('-' :: '-' :: c0 :: cs)).1 = ["--threads"]) :
    threadsRelated t = true := by
  have hc0 := cand_threads_c0 c0 cs h
  subst hc0
  rw [threadsRelated, hd]
  rw [show ("--t" : String).data = ['-', '-', 't'] from rfl]
  simp [List.isPrefixOf]

theorem long_singleton_unrec (t : String) (c0 : Char) (cs : List Char) (n : String)
    (hd : t.data = '-' :: '-' :: c0 :: cs)
    (h : longCandidates (splitAtEq ('-' :: '-' :: c0 :: cs)).1 = [n]) :
    unrecognizedFlag t = false := by
  rw [unrecognizedFlag, hd]
  simp [h]

theorem short_eq_t_c0 (c0 : Char) (cs : List Char)
    (h : (splitAtEq ('-' :: c0 :: cs)).1 = ['-', 't']) : c0 = 't' := by
  by_cases hc : c0 = '='
  · subst hc
    rw [show splitAtEq ('-' :: '=' :: cs) = (['-'], some cs) from by simp [splitAtEq]] at h
    exact absurd h (by simp)
  · rw [show splitAtEq ('-' :: c0 :: cs) =
        ('-' :: c0 :: (splitAtEq cs).1, (splitAtEq cs).2) from by simp [splitAtEq, hc]] at h
    simp at h
    exact h.1

theorem clusterChar_some_char (c : Char) (a : ShortAct) (h : clusterChar c = some a) :
    c = 'c' ∨ c = 'r' ∨ c = 'i' ∨ c = 'h' := by
  rw [clusterChar] at h
  split_ifs at h with h1 h2 h3 h4
  · exact Or.inl h1
  · exact Or.inr (Or.inl h2)
  · exact Or.inr (Or.inr (Or.inl h3))
  · exact Or.inr (Or.inr (Or.inr h4))

theorem splitAtEq_nil_some : ∀ (cs v : List Char), (splitAtEq cs).1 = [] →
    (splitAtEq cs).2 = some v → cs = '=' :: v := by
  intro cs v h1 h2
  rcases cs with _ | ⟨c, rest⟩
  · simp [splitAtEq] at h2
  · by_cases hc : c = '='
    · subst hc
      simp [splitAtEq] at h2
      rw [h2]
    · simp [splitAtEq, hc] at h1

theorem short_eq_left (c0 x : Char) (cs v : List Char)
    (h1 : (splitAtEq ('-' :: c0 :: cs)).1 = ['-', x])
    (h2 : (splitAtEq ('-' :: c0 :: cs)).2 = some v) :
    c0 = x ∧ cs = '=' :: v := by
  by_cases hc : c0 = '='
  · subst hc
    rw [show splitAtEq ('-' :: '=' :: cs) = (['-'], some cs) from by
      simp [splitAtEq]] at h1
    exact absurd h1 (by simp)
  · rw [show splitAtEq ('-' :: c0 :: cs) =
        ('-' :: c0 :: (splitAtEq cs).1, (splitAtEq cs).2) from by
      simp [splitAtEq, hc]] at h1 h2
    simp at h1
    exact ⟨h1.1, splitAtEq_nil_some cs v h1.2 h2⟩

theorem known_c0_enum (c0 : Char)
    (h : (decide (c0 = 't') || (clusterChar c0).isSome) = true) :
    c0 = 't' ∨ c0 = 'c' ∨ c0 = 'r' ∨ c0 = 'i' ∨ c0 = 'h' := by
  by_cases h1 : c0 = 't'
  · exact Or.inl h1
  · have h2 : (clusterChar c0).isSome = true := by
      simpa [h1] using h
    rcases Option.isSome_iff_exists.mp h2 with ⟨a, ha⟩
    exact Or.inr (clusterChar_some_char c0 a ha)

theorem known_c0_ne_dash (c0 : Char)
    (h : (decide (c0 = 't') || (clusterChar c0).isSome) = true) : ¬ c0 = '-' := by
  rcases known_c0_enum c0 h with h1 | h1 | h1 | h1 | h1 <;> subst h1 <;> decide

theorem short_known_of_four (c0 : Char)
    (h : c0 = 'c' ∨ c0 = 'r' ∨ c0 = 'i' ∨ c0 = 'h') :
    (decide (c0 = 't') || (clusterChar c0).isSome) = true := by
  rcases h with h1 | h1 | h1 | h1 <;> subst h1 <;> decide

theorem short_unrec_of_known (t : String) (c0 : Char) (cs : List Char)
    (hd : t.data = '-' :: c0 :: cs)
    (h : (decide (c0 = 't') || (clusterChar c0).isSome) = true) :
    unrecognizedFlag t = false := by
  rcases known_c0_enum c0 h with h1 | h1 | h1 | h1 | h1 <;> subst h1 <;>
    rw [unrecognizedFlag, hd] <;> simp [clusterChar]

theorem short_threads_related_of_t (t : String) (c0 : Char) (cs : List Char)
    (hd : t.data = '-' :: c0 :: cs) (hc : c0 = 't') : threadsRelated t = true := by
  subst hc
  rw [threadsRelated, hd]
  simp [List.contains_cons]

theorem short_threads_related_of_mem (t : String) (c0 : Char) (cs : List Char)
    (hd : t.data = '-' :: c0 :: cs) (hnd : ¬ c0 = '-')
    (hm : 't' ∈ '-' :: c0 :: cs) : threadsRelated t = true := by
  rw [threadsRelated, hd]
  have hc : ('-' :: c0 :: cs).contains 't' = true := List.elem_eq_true_of_mem hm
  simp [hc, hnd]
  rcases List.mem_cons.mp hm with h1 | h1
  · exact absurd h1 (by decide)
  · rcases List.mem_cons.mp h1 with h2 | h2
    · exact Or.inr (Or.inl h2)
    · exact Or.inr (Or.inr h2)

theorem cluster_acts_unrec (t : String) (c0 : Char) (cs : List Char)
    (as : List ShortAct) (e : ClusterEnd) (hd : t.data = '-' :: c0 :: cs)
    (h : parseCluster (c0 :: cs) = ClusterParse.acts as e) :
    unrecognizedFlag t = false :=
  short_unrec_of_known t c0 cs hd (parseCluster_acts c0 cs as e h).1

theorem cluster_tend_threads_related (t : String) (c0 : Char) (cs : List Char)
    (as : List ShortAct) (e : ClusterEnd) (hd : t.data = '-' :: c0 :: cs)
    (h : parseCluster (c0 :: cs) = ClusterParse.acts as e) (hne : e ≠ ClusterEnd.plain) :
    threadsRelated t = true :=
  short_threads_related_of_mem t c0 cs hd
    (known_c0_ne_dash c0 (parseCluster_acts c0 cs as e h).1)
    (List.mem_cons_of_mem _
      (parseClusterRest_t_mem (c0 :: cs) as e (parseCluster_acts c0 cs as e h).2 hne))

theorem long_threads_not_malformed (t : String) (c0 : Char) (cs : List Char)
    (hd : t.data = '-' :: '-' :: c0 :: cs)
    (hcand : longCandidates (splitAtEq ('-' :: '-' :: c0 :: cs)).1 = ["--threads"]) :
    malformedValueToken t = false := by
  rw [malformedValueToken, hd]
  simp [hcand]

theorem long_none_not_malformed (t : String) (c0 : Char) (cs : List Char)
    (hd : t.data = '-' :: '-' :: c0 :: cs)
    (hp2 : (splitAtEq ('-' :: '-' :: c0 :: cs)).2 = none) :
    malformedValueToken t = false := by
  rw [malformedValueToken, hd]
  simp [hp2]

theorem short_t_not_malformed (t : String) (c0 : Char) (cs v : List Char)
    (hd : t.data = '-' :: c0 :: cs)
    (hp1 : (splitAtEq ('-' :: c0 :: cs)).1 = ['-', 't'])
    (hp2 : (splitAtEq ('-' :: c0 :: cs)).2 = some v) :
    malformedValueToken t = false := by
  have hc0 := short_eq_t_c0 c0 cs hp1
  subst hc0
  rw [malformedValueToken, hd]
  simp [hp2, hp1]

theorem short_eqcluster_not_malformed (t : String) (c0 : Char) (cs v : List Char)
    (as : List ShortAct) (e : ClusterEnd) (hd : t.data = '-' :: c0 :: cs)
    (hc0 : c0 = 'c' ∨ c0 = 'r' ∨ c0 = 'i' ∨ c0 = 'h') (hcs : cs = '=' :: v)
    (hv : ¬ v = []) (hclu : parseCluster (c0 :: v) = ClusterParse.acts as e) :
    malformedValueToken t = false := by
  subst hcs
  rcases hc0 with h1 | h1 | h1 | h1 <;> subst h1 <;>
    rw [malformedValueToken, hd] <;> simp [splitAtEq, hclu, hv]

theorem eqcluster_threads_related (t : String) (c0 : Char) (cs v : List Char)
    (as : List ShortAct) (e : ClusterEnd) (hd : t.data = '-' :: c0 :: cs)
    (hc0 : c0 = 'c' ∨ c0 = 'r' ∨ c0 = 'i' ∨ c0 = 'h') (hcs : cs = '=' :: v)
    (hclu : parseCluster (c0 :: v) = ClusterParse.acts as e)
    (hne : e ≠ ClusterEnd.plain) : threadsRelated t = true := by
  have hm : 't' ∈ c0 :: v :=
    parseClusterRest_t_mem (c0 :: v) as e (parseCluster_acts c0 v as e hclu).2 hne
  have hnd : ¬ c0 = '-' := by
    rcases hc0 with h1 | h1 | h1 | h1 <;> subst h1 <;> decide
  apply short_threads_related_of_mem t c0 cs hd hnd
  subst hcs
  rcases List.mem_cons.mp hm with h1 | h1
  · rw [h1]
    exact List.mem_cons_of_mem _ (List.mem_cons_self _ _)
  · exact List.mem_cons_of_mem _ (List.mem_cons_of_mem _ (List.mem_cons_of_mem _ h1))

theorem eqcluster_triggers_help (t : String) (c0 : Char) (cs v : List Char)
    (as : List ShortAct) (e : ClusterEnd) (hd : t.data = '-' :: c0 :: cs)
    (hc0 : c0 = 'c' ∨ c0 = 'r' ∨ c0 = 'i' ∨ c0 = 'h') (hcs : cs = '=' :: v)
    (hv : ¬ v = []) (hclu : parseCluster (c0 :: v) = ClusterParse.acts as e)
    (hseth : ShortAct.seth ∈ as) : tokenTriggersHelp t = true := by
  subst hcs
  rcases hc0 with h1 | h1 | h1 | h1 <;> subst h1 <;>
    rw [tokenTriggersHelp, hd] <;> simp [splitAtEq, hclu, hseth, hv]

theorem cluster_acts_not_malformed_none (t : String) (c0 : Char) (cs : List Char)
    (as : List ShortAct) (e : ClusterEnd) (hd : t.data = '-' :: c0 :: cs)
    (hp2 : (splitAtEq ('-' :: c0 :: cs)).2 = none)
    (hclu : parseCluster (c0 :: cs) = ClusterParse.acts as e) :
    malformedValueToken t = false := by
  have hnd := known_c0_ne_dash c0 (parseCluster_acts c0 cs as e hclu).1
  rw [malformedValueToken, hd]
  simp [hnd, hp2, hclu]

theorem cluster_acts_not_malformed_some (t : String) (c0 : Char) (cs v : List Char)
    (as : List ShortAct) (e : ClusterEnd) (hd : t.data = '-' :: c0 :: cs)
    (hp2 : (splitAtEq ('-' :: c0 :: cs)).2 = some v)
    (hp1 : ¬ (splitAtEq ('-' :: c0 :: cs)).1 = ['-', 't'])
    (hp14 : ¬ ((splitAtEq ('-' :: c0 :: cs)).1 = ['-', 'c'] ∨
        (splitAtEq ('-' :: c0 :: cs)).1 = ['-', 'r'] ∨
        (splitAtEq ('-' :: c0 :: cs)).1 = ['-', 'i'] ∨
        (splitAtEq ('-' :: c0 :: cs)).1 = ['-', 'h']))
    (hclu : parseCluster (c0 :: cs) = ClusterParse.acts as e) :
    malformedValueToken t = false := by
  have hnd := known_c0_ne_dash c0 (parseCluster_acts c0 cs as e hclu).1
  rw [malformedValueToken, hd]
  simp [hnd, hp2, hp1, hp14, hclu]

theorem not_option_not_malformed (t : String) (h : looksLikeOption t = false) :
    malformedValueToken t = false := by
  rcases hd : t.data with _ | ⟨a, _ | ⟨b, l⟩⟩
  · rw [malformedValueToken, hd]
  · by_cases ha : a = '-'
    · subst ha
      rw [malformedValueToken, hd]
      decide
    · rw [malformedValueToken, hd]
      simp [ha]
  · by_cases ha : a = '-'
    · subst ha
      by_cases hb : b = '-'
      · subst hb
        rcases l with _ | ⟨c0, cs⟩
        · rw [malformedValueToken, hd]
          decide
        · have hc : longCandidates (splitAtEq ('-' :: '-' :: c0 :: cs)).1 = [] := by
            rw [looksLikeOption, hd] at h
            simp at h
            exact h.1
          rw [malformedValueToken, hd]
          simp [hc]
      · rw [looksLikeOption, hd] at h
        simp [hb] at h
        have hbt : ¬ b = 't' := h.1.1
        have hbs : clusterChar b = none := h.1.2
        have hpc : parseCluster (b :: l) = ClusterParse.notOption := by
          rw [parseCluster]
          simp [hbt, hbs]
        rw [malformedValueToken, hd]
        rcases hsp : (splitAtEq ('-' :: b :: l)).2 with _ | v
        · simp [hb, hsp, hpc]
        · have h1t : ¬ (splitAtEq ('-' :: b :: l)).1 = ['-', 't'] := fun hh =>
            hbt (short_eq_t_c0 b l hh)
          have h14 : ¬ ((splitAtEq ('-' :: b :: l)).1 = ['-', 'c'] ∨
              (splitAtEq ('-' :: b :: l)).1 = ['-', 'r'] ∨
              (splitAtEq ('-' :: b :: l)).1 = ['-', 'i'] ∨
              (splitAtEq ('-' :: b :: l)).1 = ['-', 'h']) := by
            rintro (hh | hh | hh | hh) <;>
              · obtain ⟨rfl, -⟩ := short_eq_left b _ l v hh hsp
                simp [clusterChar] at hbs
          simp [hb, hsp, h1t, h14, hpc]
    · rw [malformedValueToken, hd]
      simp [ha]

/-- Claim C8: two runs whose flags differ only in the install flag produce
identical runs (in particular identical subprocess command lines), while
the install flag itself is parsed into the configuration by both its short
and long spellings. -/
theorem install_flag_no_effect (clargs : Config) (b1 b2 : Bool) (cc bc : Child) :
    runScript { clargs with install := b1 } cc bc =
      runScript { clargs with install := b2 } cc bc ∧
    parseArgs ["-i"] = ParseOutcome.ok { initConfig with install := true } ∧
    parseArgs ["--install"] = ParseOutcome.ok { initConfig with install := true } :=
  ⟨rfl, by decide, by decide⟩

/-- Both outcomes of the parse finalization. -/
theorem finishParse_ok (cfg out : Config) (ex : Bool)
    (h : finishParse cfg ex = ParseOutcome.ok out) : ex = false ∧ out = cfg := by
  rw [finishParse] at h
  split at h
  · exact absurd h (by simp)
  · rename_i hx
    exact ⟨by simpa using hx, by simpa using h.symm⟩

/-- Private characterization of one consumption step of parseLoop ending in
a parsed configuration: either the head token is consumed alone (possibly
marking an extra), the head consumes the following token as the threads
value, or the head is a trailing threads option that ends the parse. -/
theorem parseLoop_cons_ok (tok : String) (L : List String) (cfg : Config) (ex : Bool)
    (out : Config) (h : parseLoop (tok :: L) cfg ex = ParseOutcome.ok out) :
    (∃ cfg2 ex2, parseLoop L cfg2 ex2 = ParseOutcome.ok out ∧
       (ex2 = ex ∨ ex2 = true) ∧
       ((unrecognizedFlag tok = false ∧ malformedValueToken tok = false) ∨ ex2 = true) ∧
       (cfg2.threads = cfg.threads ∨ threadsRelated tok = true)) ∨
    (∃ nxt rest2 cfg2, L = nxt :: rest2 ∧ looksLikeOption nxt = false ∧
       parseLoop rest2 cfg2 ex = ParseOutcome.ok out ∧
       unrecognizedFlag tok = false ∧ malformedValueToken tok = false ∧
       threadsRelated tok = true ∧ cfg2.threads = ThreadsVal.str nxt) ∨
    (L = [] ∧ ex = false ∧ out.threads = ThreadsVal.pyNone ∧
       unrecognizedFlag tok = false ∧ malformedValueToken tok = false ∧
       threadsRelated tok = true) := by
  rcases L with _ | ⟨nxt, rest2⟩
  · rw [parseLoop.eq_2] at h
    split at h
    · exact absurd h (by simp)
    · rename_i c0 cs heq
      dsimp only at h
      split at h
      · rename_i n hcand
        split at h
        · rename_i hn
          subst hn
          split at h
          · rename_i v hp2
            exact Or.inl ⟨_, _, h, Or.inl rfl,
              Or.inl ⟨long_singleton_unrec tok c0 cs _ heq hcand,
                long_threads_not_malformed tok c0 cs heq hcand⟩,
              Or.inr (long_threads_related tok c0 cs heq hcand)⟩
          · rename_i hp2
            obtain ⟨hx, hout⟩ := finishParse_ok _ _ _ h
            exact Or.inr (Or.inr ⟨rfl, hx, by rw [hout],
              long_singleton_unrec tok c0 cs _ heq hcand,
              long_threads_not_malformed tok c0 cs heq hcand,
              long_threads_related tok c0 cs heq hcand⟩)
        · rename_i hn
          split at h
          · rename_i hh
            split at h
            · exact absurd h (by simp)
            · exact absurd h (by simp)
          · rename_i hh
            split at h
            · exact absurd h (by simp)
            · rename_i hp2
              exact Or.inl ⟨_, _, h, Or.inl rfl,
                Or.inl ⟨long_singleton_unrec tok c0 cs _ heq hcand,
                  long_none_not_malformed tok c0 cs heq hp2⟩,
                Or.inl (setLongFlag_threads n cfg)⟩
      · exact Or.inl ⟨cfg, true, h, Or.inr rfl, Or.inr rfl, Or.inl rfl⟩
      · exact absurd h (by simp)
    · rename_i c0 cs g1 g2 heq
      dsimp only at h
      split at h
      · rename_i v hp2
        split at h
        · rename_i hp1
          have hc0 := short_eq_t_c0 c0 cs hp1
          exact Or.inl ⟨_, _, h, Or.inl rfl,
            Or.inl ⟨short_unrec_of_known tok c0 cs heq (by simp [hc0]),
              short_t_not_malformed tok c0 cs v heq hp1 hp2⟩,
            Or.inr (short_threads_related_of_t tok c0 cs heq hc0)⟩
        · rename_i hp1
          split at h
          · rename_i hp14
            obtain ⟨hc04, hcs⟩ : (c0 = 'c' ∨ c0 = 'r' ∨ c0 = 'i' ∨ c0 = 'h') ∧
                cs = '=' :: v := by
              rcases hp14 with hp | hp | hp | hp
              · obtain ⟨h1, h2⟩ := short_eq_left c0 'c' cs v hp hp2
                exact ⟨Or.inl h1, h2⟩
              · obtain ⟨h1, h2⟩ := short_eq_left c0 'r' cs v hp hp2
                exact ⟨Or.inr (Or.inl h1), h2⟩
              · obtain ⟨h1, h2⟩ := short_eq_left c0 'i' cs v hp hp2
                exact ⟨Or.inr (Or.inr (Or.inl h1)), h2⟩
              · obtain ⟨h1, h2⟩ := short_eq_left c0 'h' cs v hp hp2
                exact ⟨Or.inr (Or.inr (Or.inr h1)), h2⟩
            have hunrec := short_unrec_of_known tok c0 cs heq (short_known_of_four c0 hc04)
            split at h
            · exact absurd h (by simp)
            · rename_i hv
              split at h
              · exact Or.inl ⟨cfg, true, h, Or.inr rfl, Or.inr rfl, Or.inl rfl⟩
              · exact absurd h (by simp)
              · rename_i as e hclu
                split at h
                · exact absurd h (by simp)
                · rename_i cfg2 hacts
                  split at h
                  · exact Or.inl ⟨cfg2, ex, h, Or.inl rfl,
                      Or.inl ⟨hunrec,
                        short_eqcluster_not_malformed tok c0 cs v as _ heq hc04 hcs hv hclu⟩,
                      Or.inl (applyActs_some_threads as cfg cfg2 hacts)⟩
                  · rename_i v2
                    exact Or.inl ⟨_, ex, h, Or.inl rfl,
                      Or.inl ⟨hunrec,
                        short_eqcluster_not_malformed tok c0 cs v as _ heq hc04 hcs hv hclu⟩,
                      Or.inr (eqcluster_threads_related tok c0 cs v as _ heq hc04 hcs hclu
                        (by simp))⟩
                  · obtain ⟨hx, hout⟩ := finishParse_ok _ _ _ h
                    exact Or.inr (Or.inr ⟨rfl, hx, by rw [hout], hunrec,
                      short_eqcluster_not_malformed tok c0 cs v as _ heq hc04 hcs hv hclu,
                      eqcluster_threads_related tok c0 cs v as _ heq hc04 hcs hclu (by simp)⟩)
          · rename_i hp14
            split at h
            · exact Or.inl ⟨cfg, true, h, Or.inr rfl, Or.inr rfl, Or.inl rfl⟩
            · exact absurd h (by simp)
            · rename_i as e hclu
              split at h
              · exact absurd h (by simp)
              · rename_i cfg2 hacts
                split at h
                · exact Or.inl ⟨cfg2, ex, h, Or.inl rfl,
                    Or.inl ⟨cluster_acts_unrec tok c0 cs as _ heq hclu,
                      cluster_acts_not_malformed_some tok c0 cs v as _ heq hp2 hp1 hp14 hclu⟩,
                    Or.inl (applyActs_some_threads as cfg cfg2 hacts)⟩
                · rename_i v2
                  exact Or.inl ⟨_, ex, h, Or.inl rfl,
                    Or.inl ⟨cluster_acts_unrec tok c0 cs as _ heq hclu,
                      cluster_acts_not_malformed_some tok c0 cs v as _ heq hp2 hp1 hp14 hclu⟩,
                    Or.inr (cluster_tend_threads_related tok c0 cs as _ heq hclu (by simp))⟩
                · obtain ⟨hx, hout⟩ := finishParse_ok _ _ _ h
                  exact Or.inr (Or.inr ⟨rfl, hx, by rw [hout],
                    cluster_acts_unrec tok c0 cs as _ heq hclu,
                    cluster_acts_not_malformed_some tok c0 cs v as _ heq hp2 hp1 hp14 hclu,
                    cluster_tend_threads_related tok c0 cs as _ heq hclu (by simp)⟩)
      · rename_i hp2
        split at h
        · exact Or.inl ⟨cfg, true, h, Or.inr rfl, Or.inr rfl, Or.inl rfl⟩
        · exact absurd h (by simp)
        · rename_i as e hclu
          split at h
          · exact absurd h (by simp)
          · rename_i cfg2 hacts
            split at h
            · exact Or.inl ⟨cfg2, ex, h, Or.inl rfl,
                Or.inl ⟨cluster_acts_unrec tok c0 cs as _ heq hclu,
                  cluster_acts_not_malformed_none tok c0 cs as _ heq hp2 hclu⟩,
                Or.inl (applyActs_some_threads as cfg cfg2 hacts)⟩
            · rename_i v2
              exact Or.inl ⟨_, ex, h, Or.inl rfl,
                Or.inl ⟨cluster_acts_unrec tok c0 cs as _ heq hclu,
                  cluster_acts_not_malformed_none tok c0 cs as _ heq hp2 hclu⟩,
                Or.inr (cluster_tend_threads_related tok c0 cs as _ heq hclu (by simp))⟩
            · obtain ⟨hx, hout⟩ := finishParse_ok _ _ _ h
              exact Or.inr (Or.inr ⟨rfl, hx, by rw [hout],
                cluster_acts_unrec tok c0 cs as _ heq hclu,
                cluster_acts_not_malformed_none tok c0 cs as _ heq hp2 hclu,
                cluster_tend_threads_related tok c0 cs as _ heq hclu (by simp)⟩)
    · exact Or.inl ⟨cfg, true, h, Or.inr rfl, Or.inr rfl, Or.inl rfl⟩
  · simp only [parseLoop] at h
    split at h
    · exact absurd h (by simp)
    · rename_i junk c0 cs heq
      split at h
      · rename_i n hcand
        split at h
        · rename_i hn
          subst hn
          split at h
          · rename_i v hp2
            exact Or.inl ⟨_, _, h, Or.inl rfl,
              Or.inl ⟨long_singleton_unrec tok c0 cs _ heq hcand,
                long_threads_not_malformed tok c0 cs heq hcand⟩,
              Or.inr (long_threads_related tok c0 cs heq hcand)⟩
          · rename_i hp2
            split at h
            · rename_i hlook
              exact Or.inl ⟨_, _, h, Or.inl rfl,
                Or.inl ⟨long_singleton_unrec tok c0 cs _ heq hcand,
                  long_threads_not_malformed tok c0 cs heq hcand⟩,
                Or.inr (long_threads_related tok c0 cs heq hcand)⟩
            · rename_i hlook
              exact Or.inr (Or.inl ⟨nxt, rest2, _, rfl, by simpa using hlook, h,
                long_singleton_unrec tok c0 cs _ heq hcand,
                long_threads_not_malformed tok c0 cs heq hcand,
                long_threads_related tok c0 cs heq hcand, rfl⟩)
        · rename_i hn
          split at h
          · rename_i hh
            split at h
            · exact absurd h (by simp)
            · exact absurd h (by simp)
          · rename_i hh
            split at h
            · exact absurd h (by simp)
            · rename_i hp2
              exact Or.inl ⟨_, _, h, Or.inl rfl,
                Or.inl ⟨long_singleton_unrec tok c0 cs _ heq hcand,
                  long_none_not_malformed tok c0 cs heq hp2⟩,
                Or.inl (setLongFlag_threads n cfg)⟩
      · exact Or.inl ⟨cfg, true, h, Or.inr rfl, Or.inr rfl, Or.inl rfl⟩
      · exact absurd h (by simp)
    · rename_i junk c0 cs g1 g2 heq
      split at h
      · rename_i v hp2
        split at h
        · rename_i hp1
          have hc0 := short_eq_t_c0 c0 cs hp1
          exact Or.inl ⟨_, _, h, Or.inl rfl,
            Or.inl ⟨short_unrec_of_known tok c0 cs heq (by simp [hc0]),
              short_t_not_malformed tok c0 cs v heq hp1 hp2⟩,
            Or.inr (short_threads_related_of_t tok c0 cs heq hc0)⟩
        · rename_i hp1
          split at h
          · rename_i hp14
            obtain ⟨hc04, hcs⟩ : (c0 = 'c' ∨ c0 = 'r' ∨ c0 = 'i' ∨ c0 = 'h') ∧
                cs = '=' :: v := by
              rcases hp14 with hp | hp | hp | hp
              · obtain ⟨h1, h2⟩ := short_eq_left c0 'c' cs v hp hp2
                exact ⟨Or.inl h1, h2⟩
              · obtain ⟨h1, h2⟩ := short_eq_left c0 'r' cs v hp hp2
                exact ⟨Or.inr (Or.inl h1), h2⟩
              · obtain ⟨h1, h2⟩ := short_eq_left c0 'i' cs v hp hp2
                exact ⟨Or.inr (Or.inr (Or.inl h1)), h2⟩
              · obtain ⟨h1, h2⟩ := short_eq_left c0 'h' cs v hp hp2
                exact ⟨Or.inr (Or.inr (Or.inr h1)), h2⟩
            have hunrec := short_unrec_of_known tok c0 cs heq (short_known_of_four c0 hc04)
            split at h
            · exact absurd h (by simp)
            · rename_i hv
              split at h
              · exact Or.inl ⟨cfg, true, h, Or.inr rfl, Or.inr rfl, Or.inl rfl⟩
              · exact absurd h (by simp)
              · rename_i as e hclu
                split at h
                · exact absurd h (by simp)
                · rename_i cfg2 hacts
                  split at h
                  · exact Or.inl ⟨cfg2, ex, h, Or.inl rfl,
                      Or.inl ⟨hunrec,
                        short_eqcluster_not_malformed tok c0 cs v as _ heq hc04 hcs hv hclu⟩,
                      Or.inl (applyActs_some_threads as cfg cfg2 hacts)⟩
                  · rename_i v2
                    exact Or.inl ⟨_, ex, h, Or.inl rfl,
                      Or.inl ⟨hunrec,
                        short_eqcluster_not_malformed tok c0 cs v as _ heq hc04 hcs hv hclu⟩,
                      Or.inr (eqcluster_threads_related tok c0 cs v as _ heq hc04 hcs hclu
                        (by simp))⟩
                  · split at h
                    · rename_i hlook
                      exact Or.inl ⟨_, _, h, Or.inl rfl,
                        Or.inl ⟨hunrec,
                          short_eqcluster_not_malformed tok c0 cs v as _ heq hc04 hcs hv hclu⟩,
                        Or.inr (eqcluster_threads_related tok c0 cs v as _ heq hc04 hcs hclu
                          (by simp))⟩
                    · rename_i hlook
                      exact Or.inr (Or.inl ⟨nxt, rest2, _, rfl, by simpa using hlook, h,
                        hunrec,
                        short_eqcluster_not_malformed tok c0 cs v as _ heq hc04 hcs hv hclu,
                        eqcluster_threads_related tok c0 cs v as _ heq hc04 hcs hclu
                          (by simp), rfl⟩)
          · rename_i hp14
            split at h
            · exact Or.inl ⟨cfg, true, h, Or.inr rfl, Or.inr rfl, Or.inl rfl⟩
            · exact absurd h (by simp)
            · rename_i as e hclu
              split at h
              · exact absurd h (by simp)
              · rename_i cfg2 hacts
                split at h
                · exact Or.inl ⟨cfg2, ex, h, Or.inl rfl,
                    Or.inl ⟨cluster_acts_unrec tok c0 cs as _ heq hclu,
                      cluster_acts_not_malformed_some tok c0 cs v as _ heq hp2 hp1 hp14 hclu⟩,
                    Or.inl (applyActs_some_threads as cfg cfg2 hacts)⟩
                · rename_i v2
                  exact Or.inl ⟨_, ex, h, Or.inl rfl,
                    Or.inl ⟨cluster_acts_unrec tok c0 cs as _ heq hclu,
                      cluster_acts_not_malformed_some tok c0 cs v as _ heq hp2 hp1 hp14 hclu⟩,
                    Or.inr (cluster_tend_threads_related tok c0 cs as _ heq hclu (by simp))⟩
                · split at h
                  · rename_i hlook
                    exact Or.inl ⟨_, _, h, Or.inl rfl,
                      Or.inl ⟨cluster_acts_unrec tok c0 cs as _ heq hclu,
                        cluster_acts_not_malformed_some tok c0 cs v as _ heq hp2 hp1 hp14 hclu⟩,
                      Or.inr (cluster_tend_threads_related tok c0 cs as _ heq hclu (by simp))⟩
                  · rename_i hlook
                    exact Or.inr (Or.inl ⟨nxt, rest2, _, rfl, by simpa using hlook, h,
                      cluster_acts_unrec tok c0 cs as _ heq hclu,
                      cluster_acts_not_malformed_some tok c0 cs v as _ heq hp2 hp1 hp14 hclu,
                      cluster_tend_threads_related tok c0 cs as _ heq hclu (by simp), rfl⟩)
      · rename_i hp2
        split at h
        · exact Or.inl ⟨cfg, true, h, Or.inr rfl, Or.inr rfl, Or.inl rfl⟩
        · exact absurd h (by simp)
        · rename_i as e hclu
          split at h
          · exact absurd h (by simp)
          · rename_i cfg2 hacts
            split at h
            · exact Or.inl ⟨cfg2, ex, h, Or.inl rfl,
                Or.inl ⟨cluster_acts_unrec tok c0 cs as _ heq hclu,
                  cluster_acts_not_malformed_none tok c0 cs as _ heq hp2 hclu⟩,
                Or.inl (applyActs_some_threads as cfg cfg2 hacts)⟩
            · rename_i v2
              exact Or.inl ⟨_, ex, h, Or.inl rfl,
                Or.inl ⟨cluster_acts_unrec tok c0 cs as _ heq hclu,
                  cluster_acts_not_malformed_none tok c0 cs as _ heq hp2 hclu⟩,
                Or.inr (cluster_tend_threads_related tok c0 cs as _ heq hclu (by simp))⟩
            · split at h
              · rename_i hlook
                exact Or.inl ⟨_, _, h, Or.inl rfl,
                  Or.inl ⟨cluster_acts_unrec tok c0 cs as _ heq hclu,
                    cluster_acts_not_malformed_none tok c0 cs as _ heq hp2 hclu⟩,
                  Or.inr (cluster_tend_threads_related tok c0 cs as _ heq hclu (by simp))⟩
              · rename_i hlook
                exact Or.inr (Or.inl ⟨nxt, rest2, _, rfl, by simpa using hlook, h,
                  cluster_acts_unrec tok c0 cs as _ heq hclu,
                  cluster_acts_not_malformed_none tok c0 cs as _ heq hp2 hclu,
                  cluster_tend_threads_related tok c0 cs as _ heq hclu (by simp), rfl⟩)
    · exact Or.inl ⟨cfg, true, h, Or.inr rfl, Or.inr rfl, Or.inl rfl⟩

theorem finishParse_ne_help (cfg : Config) (ex : Bool) :
    finishParse cfg ex ≠ ParseOutcome.helpExit := by
  rw [finishParse]
  split <;> simp

/-- Private characterization of one consumption step of parseLoop ending in
the help exit: the head token triggers the help action, or a later token
does after the head is consumed alone or together with a threads value. -/
theorem parseLoop_cons_help (tok : String) (L : List String) (cfg : Config) (ex : Bool)
    (h : parseLoop (tok :: L) cfg ex = ParseOutcome.helpExit) :
    tokenTriggersHelp tok = true ∨
    (∃ cfg2 ex2, parseLoop L cfg2 ex2 = ParseOutcome.helpExit) ∨
    (∃ nxt rest2 cfg2 ex2, L = nxt :: rest2 ∧
      parseLoop rest2 cfg2 ex2 = ParseOutcome.helpExit) := by
  rcases L with _ | ⟨nxt, rest2⟩
  · rw [parseLoop.eq_2] at h
    split at h
    · exact absurd h (by simp)
    · rename_i c0 cs heq
      dsimp only at h
      split at h
      · rename_i n hcand
        split at h
        · rename_i hn
          subst hn
          split at h
          · exact Or.inr (Or.inl ⟨_, _, h⟩)
          · exact absurd h (finishParse_ne_help _ _)
        · rename_i hn
          split at h
          · rename_i hh
            subst hh
            split at h
            · exact absurd h (by simp)
            · rename_i hp2
              refine Or.inl ?_
              rw [tokenTriggersHelp, heq]
              simp [hcand, hp2]
          · rename_i hh
            split at h
            · exact absurd h (by simp)
            · exact Or.inr (Or.inl ⟨_, _, h⟩)
      · exact Or.inr (Or.inl ⟨_, _, h⟩)
      · exact absurd h (by simp)
    · rename_i c0 cs g1 g2 heq
      dsimp only at h
      split at h
      · rename_i v hp2
        split at h
        · exact Or.inr (Or.inl ⟨_, _, h⟩)
        · rename_i hp1
          split at h
          · rename_i hp14
            obtain ⟨hc04, hcs⟩ : (c0 = 'c' ∨ c0 = 'r' ∨ c0 = 'i' ∨ c0 = 'h') ∧
                cs = '=' :: v := by
              rcases hp14 with hp | hp | hp | hp
              · obtain ⟨h1, h2⟩ := short_eq_left c0 'c' cs v hp hp2
                exact ⟨Or.inl h1, h2⟩
              · obtain ⟨h1, h2⟩ := short_eq_left c0 'r' cs v hp hp2
                exact ⟨Or.inr (Or.inl h1), h2⟩
              · obtain ⟨h1, h2⟩ := short_eq_left c0 'i' cs v hp hp2
                exact ⟨Or.inr (Or.inr (Or.inl h1)), h2⟩
              · obtain ⟨h1, h2⟩ := short_eq_left c0 'h' cs v hp hp2
                exact ⟨Or.inr (Or.inr (Or.inr h1)), h2⟩
            split at h
            · exact absurd h (by simp)
            · rename_i hv
              split at h
              · exact Or.inr (Or.inl ⟨_, _, h⟩)
              · exact absurd h (by simp)
              · rename_i as e hclu
                split at h
                · rename_i hacts
                  exact Or.inl (eqcluster_triggers_help tok c0 cs v as e heq hc04 hcs hv
                    hclu (applyActs_none_mem as cfg hacts))
                · rename_i cfg2 hacts
                  split at h
                  · exact Or.inr (Or.inl ⟨_, _, h⟩)
                  · exact Or.inr (Or.inl ⟨_, _, h⟩)
                  · exact absurd h (finishParse_ne_help _ _)
          · rename_i hp14
            split at h
            · exact Or.inr (Or.inl ⟨_, _, h⟩)
            · exact absurd h (by simp)
            · rename_i as e hclu
              split at h
              · rename_i hacts
                refine Or.inl ?_
                rw [tokenTriggersHelp, heq]
                simp [hp2, hp1, hp14, hclu, applyActs_none_mem as cfg hacts]
              · rename_i cfg2 hacts
                split at h
                · exact Or.inr (Or.inl ⟨_, _, h⟩)
                · exact Or.inr (Or.inl ⟨_, _, h⟩)
                · exact absurd h (finishParse_ne_help _ _)
      · rename_i hp2
        split at h
        · exact Or.inr (Or.inl ⟨_, _, h⟩)
        · exact absurd h (by simp)
        · rename_i as e hclu
          split at h
          · rename_i hacts
            refine Or.inl ?_
            rw [tokenTriggersHelp, heq]
            simp [hp2, hclu, applyActs_none_mem as cfg hacts]
          · rename_i cfg2 hacts
            split at h
            · exact Or.inr (Or.inl ⟨_, _, h⟩)
            · exact Or.inr (Or.inl ⟨_, _, h⟩)
            · exact absurd h (finishParse_ne_help _ _)
    · exact Or.inr (Or.inl ⟨_, _, h⟩)
  · simp only [parseLoop] at h
    split at h
    · exact absurd h (by simp)
    · rename_i junk c0 cs heq
      split at h
      · rename_i n hcand
        split at h
        · rename_i hn
          subst hn
          split at h
          · exact Or.inr (Or.inl ⟨_, _, h⟩)
          · split at h
            · exact Or.inr (Or.inl ⟨_, _, h⟩)
            · exact Or.inr (Or.inr ⟨nxt, rest2, _, _, rfl, h⟩)
        · rename_i hn
          split at h
          · rename_i hh
            subst hh
            split at h
            · exact absurd h (by simp)
            · rename_i hp2
              refine Or.inl ?_
              rw [tokenTriggersHelp, heq]
              simp [hcand, hp2]
          · rename_i hh
            split at h
            · exact absurd h (by simp)
            · exact Or.inr (Or.inl ⟨_, _, h⟩)
      · exact Or.inr (Or.inl ⟨_, _, h⟩)
      · exact absurd h (by simp)
    · rename_i junk c0 cs g1 g2 heq
      split at h
      · rename_i v hp2
        split at h
        · exact Or.inr (Or.inl ⟨_, _, h⟩)
        · rename_i hp1
          split at h
          · rename_i hp14
            obtain ⟨hc04, hcs⟩ : (c0 = 'c' ∨ c0 = 'r' ∨ c0 = 'i' ∨ c0 = 'h') ∧
                cs = '=' :: v := by
              rcases hp14 with hp | hp | hp | hp
              · obtain ⟨h1, h2⟩ := short_eq_left c0 'c' cs v hp hp2
                exact ⟨Or.inl h1, h2⟩
              · obtain ⟨h1, h2⟩ := short_eq_left c0 'r' cs v hp hp2
                exact ⟨Or.inr (Or.inl h1), h2⟩
              · obtain ⟨h1, h2⟩ := short_eq_left c0 'i' cs v hp hp2
                exact ⟨Or.inr (Or.inr (Or.inl h1)), h2⟩
              · obtain ⟨h1, h2⟩ := short_eq_left c0 'h' cs v hp hp2
                exact ⟨Or.inr (Or.inr (Or.inr h1)), h2⟩
            split at h
            · exact absurd h (by simp)
            · rename_i hv
              split at h
              · exact Or.inr (Or.inl ⟨_, _, h⟩)
              · exact absurd h (by simp)
              · rename_i as e hclu
                split at h
                · rename_i hacts
                  exact Or.inl (eqcluster_triggers_help tok c0 cs v as e heq hc04 hcs hv
                    hclu (applyActs_none_mem as cfg hacts))
                · rename_i cfg2 hacts
                  split at h
                  · exact Or.inr (Or.inl ⟨_, _, h⟩)
                  · exact Or.inr (Or.inl ⟨_, _, h⟩)
                  · split at h
                    · exact Or.inr (Or.inl ⟨_, _, h⟩)
                    · exact Or.inr (Or.inr ⟨nxt, rest2, _, _, rfl, h⟩)
          · rename_i hp14
            split at h
            · exact Or.inr (Or.inl ⟨_, _, h⟩)
            · exact absurd h (by simp)
            · rename_i as e hclu
              split at h
              · rename_i hacts
                refine Or.inl ?_
                rw [tokenTriggersHelp, heq]
                simp [hp2, hp1, hp14, hclu, applyActs_none_mem as cfg hacts]
              · rename_i cfg2 hacts
                split at h
                · exact Or.inr (Or.inl ⟨_, _, h⟩)
                · exact Or.inr (Or.inl ⟨_, _, h⟩)
                · split at h
                  · exact Or.inr (Or.inl ⟨_, _, h⟩)
                  · exact Or.inr (Or.inr ⟨nxt, rest2, _, _, rfl, h⟩)
      · rename_i hp2
        split at h
        · exact Or.inr (Or.inl ⟨_, _, h⟩)
        · exact absurd h (by simp)
        · rename_i as e hclu
          split at h
          · rename_i hacts
            refine Or.inl ?_
            rw [tokenTriggersHelp, heq]
            simp [hp2, hclu, applyActs_none_mem as cfg hacts]
          · rename_i cfg2 hacts
            split at h
            · exact Or.inr (Or.inl ⟨_, _, h⟩)
            · exact Or.inr (Or.inl ⟨_, _, h⟩)
            · split at h
              · exact Or.inr (Or.inl ⟨_, _, h⟩)
              · exact Or.inr (Or.inr ⟨nxt, rest2, _, _, rfl, h⟩)
    · exact Or.inr (Or.inl ⟨_, _, h⟩)

/-- A parse that has already collected an extra token never produces a
configuration: the deferred unrecognized arguments error fires at the end. -/
theorem parseLoop_extras_not_ok (l : List String) (cfg out : Config)
    (h : parseLoop l cfg true = ParseOutcome.ok out) : False := by
  suffices H : ∀ (n : Nat) (l : List String), l.length ≤ n → ∀ (cfg out : Config),
      parseLoop l cfg true = ParseOutcome.ok out → False from H l.length l le_rfl cfg out h
  intro n
  induction n with
  | zero =>
    intro l hl cfg out h
    rcases l with _ | ⟨tok, L⟩
    · rw [parseLoop.eq_1] at h
      rcases finishParse_ok _ _ _ h with ⟨hx, _⟩
      exact absurd hx (by simp)
    · simp at hl
  | succ n ih =>
    intro l hl cfg out h
    rcases l with _ | ⟨tok, L⟩
    · rw [parseLoop.eq_1] at h
      rcases finishParse_ok _ _ _ h with ⟨hx, _⟩
      exact absurd hx (by simp)
    · rcases parseLoop_cons_ok tok L cfg true out h with
        ⟨cfg2, ex2, h2, hex2, _, _⟩ | ⟨nxt, rest2, cfg2, hL, _, h2, _, _, _, _⟩ | ⟨_, hex, _⟩
      · have hx : ex2 = true := by
          rcases hex2 with h3 | h3
          · exact h3
          · exact h3
        subst hx
        have hlen : L.length ≤ n := by
          simp at hl
          omega
        exact ih L hlen cfg2 out h2
      · subst hL
        have hlen : rest2.length ≤ n := by
          simp at hl
          omega
        exact ih rest2 hlen cfg2 out h2
      · exact absurd hex (by simp)

/-- A successful parse contains no unrecognized flag token and no token
whose explicit or attached option value is malformed. -/
theorem parseLoop_ok_no_unrecognized (l : List String) (cfg : Config) (ex : Bool)
    (out : Config) (h : parseLoop l cfg ex = ParseOutcome.ok out) :
    ∀ t ∈ l, unrecognizedFlag t = false ∧ malformedValueToken t = false := by
  suffices H : ∀ (n : Nat) (l : List String), l.length ≤ n → ∀ (cfg : Config) (ex : Bool)
      (out : Config), parseLoop l cfg ex = ParseOutcome.ok out →
      ∀ t ∈ l, unrecognizedFlag t = false ∧ malformedValueToken t = false from
    H l.length l le_rfl cfg ex out h
  intro n
  induction n with
  | zero =>
    intro l hl cfg ex out h t ht
    rcases l with _ | ⟨tok, L⟩
    · simp at ht
    · simp at hl
  | succ n ih =>
    intro l hl cfg ex out h t ht
    rcases l with _ | ⟨tok, L⟩
    · simp at ht
    · have hlen : L.length ≤ n := by
        simp at hl
        omega
      rcases parseLoop_cons_ok tok L cfg ex out h with
        ⟨cfg2, ex2, h2, hex2, hunrec, _⟩ |
        ⟨nxt, rest2, cfg2, hL, hnxt, h2, hunrec, hmal, _, _⟩ |
        ⟨hL, _, _, hunrec, hmal, _⟩
      · by_cases hx : ex2 = true
        · exact (parseLoop_extras_not_ok L cfg2 out (hx ▸ h2)).elim
        · rcases List.mem_cons.mp ht with rfl | ht2
          · rcases hunrec with hu | hu
            · exact hu
            · exact absurd hu hx
          · exact ih L hlen cfg2 ex2 out h2 t ht2
      · subst hL
        rcases List.mem_cons.mp ht with rfl | ht2
        · exact ⟨hunrec, hmal⟩
        · rcases List.mem_cons.mp ht2 with rfl | ht3
          · exact ⟨not_option_not_unrecognized t hnxt, not_option_not_malformed t hnxt⟩
          · have hlen2 : rest2.length ≤ n := by
              simp at hl
              omega
            exact ih rest2 hlen2 cfg2 ex out h2 t ht3
      · subst hL
        rcases List.mem_cons.mp ht with rfl | ht2
        · exact ⟨hunrec, hmal⟩
        · simp at ht2

/-- A successful parse over tokens that cannot touch the threads option
leaves the threads value unchanged. -/
theorem parseLoop_ok_threads_preserved (l : List String) (cfg : Config) (ex : Bool)
    (out : Config) (h : parseLoop l cfg ex = ParseOutcome.ok out)
    (hnr : ∀ t ∈ l, threadsRelated t = false) : out.threads = cfg.threads := by
  suffices H : ∀ (n : Nat) (l : List String), l.length ≤ n → ∀ (cfg : Config) (ex : Bool)
      (out : Config), parseLoop l cfg ex = ParseOutcome.ok out →
      (∀ t ∈ l, threadsRelated t = false) → out.threads = cfg.threads from
    H l.length l le_rfl cfg ex out h hnr
  intro n
  induction n with
  | zero =>
    intro l hl cfg ex out h hnr
    rcases l with _ | ⟨tok, L⟩
    · rw [parseLoop.eq_1] at h
      rcases finishParse_ok _ _ _ h with ⟨_, rfl⟩
      rfl
    · simp at hl
  | succ n ih =>
    intro l hl cfg ex out h hnr
    rcases l with _ | ⟨tok, L⟩
    · rw [parseLoop.eq_1] at h
      rcases finishParse_ok _ _ _ h with ⟨_, rfl⟩
      rfl
    · have hlen : L.length ≤ n := by
        simp at hl
        omega
      rcases parseLoop_cons_ok tok L cfg ex out h with
        ⟨cfg2, ex2, h2, _, _, hthr⟩ | ⟨nxt, rest2, cfg2, hL, _, h2, _, _, hrel, _⟩ |
        ⟨hL, _, _, _, _, hrel⟩
      · rcases hthr with hth | hth
        · rw [ih L hlen cfg2 ex2 out h2 (fun t ht => hnr t (List.mem_cons_of_mem _ ht)), hth]
        · exact absurd hth (by simp [hnr tok (List.mem_cons_self _ _)])
      · exact absurd hrel (by simp [hnr tok (List.mem_cons_self _ _)])
      · exact absurd hrel (by simp [hnr tok (List.mem_cons_self _ _)])

/-- A parse ending in the help exit saw a token that triggers the help
action. -/
theorem parseLoop_help_mem (l : List String) (cfg : Config) (ex : Bool)
    (h : parseLoop l cfg ex = ParseOutcome.helpExit) :
    ∃ t ∈ l, tokenTriggersHelp t = true := by
  suffices H : ∀ (n : Nat) (l : List String), l.length ≤ n → ∀ (cfg : Config) (ex : Bool),
      parseLoop l cfg ex = ParseOutcome.helpExit →
      ∃ t ∈ l, tokenTriggersHelp t = true from H l.length l le_rfl cfg ex h
  intro n
  induction n with
  | zero =>
    intro l hl cfg ex h
    rcases l with _ | ⟨tok, L⟩
    · exact absurd h (finishParse_ne_help _ _)
    · simp at hl
  | succ n ih =>
    intro l hl cfg ex h
    rcases l with _ | ⟨tok, L⟩
    · exact absurd h (finishParse_ne_help _ _)
    · have hlen : L.length ≤ n := by
        simp at hl
        omega
      rcases parseLoop_cons_help tok L cfg ex h with
        htr | ⟨cfg2, ex2, h2⟩ | ⟨nxt, rest2, cfg2, ex2, hL, h2⟩
      · exact ⟨tok, List.mem_cons_self _ _, htr⟩
      · rcases ih L hlen cfg2 ex2 h2 with ⟨t, ht, htr⟩
        exact ⟨t, List.mem_cons_of_mem _ ht, htr⟩
      · subst hL
        have hlen2 : rest2.length ≤ n := by
          simp at hl
          omega
        rcases ih rest2 hlen2 cfg2 ex2 h2 with ⟨t, ht, htr⟩
        exact ⟨t, List.mem_cons_of_mem _ (List.mem_cons_of_mem _ ht), htr⟩

theorem parseLoop_t_value (v : String) (cfg : Config) (ex : Bool)
    (hv : looksLikeOption v = false) :
    parseLoop ["-t", v] cfg ex = finishParse { cfg with threads := ThreadsVal.str v } ex := by
  simp [parseLoop, splitAtEq, parseCluster, parseClusterRest, clusterChar, hv]

theorem parseLoop_threads_value (v : String) (cfg : Config) (ex : Bool)
    (hv : looksLikeOption v = false) :
    parseLoop ["--threads", v] cfg ex =
      finishParse { cfg with threads := ThreadsVal.str v } ex := by
  simp [parseLoop, splitAtEq, longCandidates, longNames, hv]

theorem parseLoop_t_alone (cfg : Config) (ex : Bool) :
    parseLoop ["-t"] cfg ex = finishParse { cfg with threads := ThreadsVal.pyNone } ex := by
  simp [parseLoop, splitAtEq, parseCluster, parseClusterRest, clusterChar]

theorem parseLoop_threads_alone (cfg : Config) (ex : Bool) :
    parseLoop ["--threads"] cfg ex =
      finishParse { cfg with threads := ThreadsVal.pyNone } ex := by
  simp [parseLoop, splitAtEq, longCandidates, longNames]

theorem parseLoop_t_skip (w : String) (post : List String) (cfg : Config) (ex : Bool)
    (hw : looksLikeOption w = true) :
    parseLoop ("-t" :: w :: post) cfg ex =
      parseLoop (w :: post) { cfg with threads := ThreadsVal.pyNone } ex := by
  simp [parseLoop, splitAtEq, parseCluster, parseClusterRest, clusterChar, hw]

theorem parseLoop_threads_skip (w : String) (post : List String) (cfg : Config) (ex : Bool)
    (hw : looksLikeOption w = true) :
    parseLoop ("--threads" :: w :: post) cfg ex =
      parseLoop (w :: post) { cfg with threads := ThreadsVal.pyNone } ex := by
  simp [parseLoop, splitAtEq, longCandidates, longNames, hw]

/-- When the last two tokens supply a value to the threads option, a
successful parse records exactly that string as the threads value. -/
theorem parseLoop_suffix_value (f v : String) (hf : f = "-t" ∨ f = "--threads")
    (hv : looksLikeOption v = false) (l0 : List String) (cfg : Config) (ex : Bool)
    (out : Config) (h : parseLoop (l0 ++ [f, v]) cfg ex = ParseOutcome.ok out) :
    out.threads = ThreadsVal.str v := by
  suffices H : ∀ (n : Nat) (l0 : List String), l0.length ≤ n → ∀ (cfg : Config) (ex : Bool)
      (out : Config), parseLoop (l0 ++ [f, v]) cfg ex = ParseOutcome.ok out →
      out.threads = ThreadsVal.str v from H l0.length l0 le_rfl cfg ex out h
  intro n
  induction n with
  | zero =>
    intro l0 hl cfg ex out h
    rcases l0 with _ | ⟨x, l02⟩
    · rcases hf with rfl | rfl
      · rw [List.nil_append, parseLoop_t_value v cfg ex hv] at h
        rcases finishParse_ok _ _ _ h with ⟨_, rfl⟩
        rfl
      · rw [List.nil_append, parseLoop_threads_value v cfg ex hv] at h
        rcases finishParse_ok _ _ _ h with ⟨_, rfl⟩
        rfl
    · simp at hl
  | succ n ih =>
    intro l0 hl cfg ex out h
    rcases l0 with _ | ⟨x, l02⟩
    · rcases hf with rfl | rfl
      · rw [List.nil_append, parseLoop_t_value v cfg ex hv] at h
        rcases finishParse_ok _ _ _ h with ⟨_, rfl⟩
        rfl
      · rw [List.nil_append, parseLoop_threads_value v cfg ex hv] at h
        rcases finishParse_ok _ _ _ h with ⟨_, rfl⟩
        rfl
    · have hlen : l02.length ≤ n := by
        simp at hl
        omega
      rw [List.cons_append] at h
      rcases parseLoop_cons_ok x (l02 ++ [f, v]) cfg ex out h with
        ⟨cfg2, ex2, h2, _, _, _⟩ | ⟨nxt, rest2, cfg2, hL, hnxt, h2, _, _, _, _⟩ |
        ⟨hL, _, _, _, _, _⟩
      · exact ih l02 hlen cfg2 ex2 out h2
      · rcases l02 with _ | ⟨y, l03⟩
        · rw [List.nil_append] at hL
          obtain ⟨rfl, rfl⟩ := List.cons.inj hL
          rcases hf with rfl | rfl
          · exact absurd hnxt (by decide)
          · exact absurd hnxt (by decide)
        · rw [List.cons_append] at hL
          obtain ⟨rfl, hrest⟩ := List.cons.inj hL
          have hlen2 : l03.length ≤ n := by
            simp at hl
            omega
          exact ih l03 hlen2 cfg2 ex out (hrest ▸ h2)
      · exact absurd hL (by simp)

/-- When the last token is the threads option with no count following, a
successful parse records the Python None as the threads value. -/
theorem parseLoop_suffix_alone (f : String) (hf : f = "-t" ∨ f = "--threads")
    (l0 : List String) (cfg : Config) (ex : Bool) (out : Config)
    (h : parseLoop (l0 ++ [f]) cfg ex = ParseOutcome.ok out) :
    out.threads = ThreadsVal.pyNone := by
  suffices H : ∀ (n : Nat) (l0 : List String), l0.length ≤ n → ∀ (cfg : Config) (ex : Bool)
      (out : Config), parseLoop (l0 ++ [f]) cfg ex = ParseOutcome.ok out →
      out.threads = ThreadsVal.pyNone from H l0.length l0 le_rfl cfg ex out h
  intro n
  induction n with
  | zero =>
    intro l0 hl cfg ex out h
    rcases l0 with _ | ⟨x, l02⟩
    · rcases hf with rfl | rfl
      · rw [List.nil_append, parseLoop_t_alone cfg ex] at h
        rcases finishParse_ok _ _ _ h with ⟨_, rfl⟩
        rfl
      · rw [List.nil_append, parseLoop_threads_alone cfg ex] at h
        rcases finishParse_ok _ _ _ h with ⟨_, rfl⟩
        rfl
    · simp at hl
  | succ n ih =>
    intro l0 hl cfg ex out h
    rcases l0 with _ | ⟨x, l02⟩
    · rcases hf with rfl | rfl
      · rw [List.nil_append, parseLoop_t_alone cfg ex] at h
        rcases finishParse_ok _ _ _ h with ⟨_, rfl⟩
        rfl
      · rw [List.nil_append, parseLoop_threads_alone cfg ex] at h
        rcases finishParse_ok _ _ _ h with ⟨_, rfl⟩
        rfl
    · have hlen : l02.length ≤ n := by
        simp at hl
        omega
      rw [List.cons_append] at h
      rcases parseLoop_cons_ok x (l02 ++ [f]) cfg ex out h with
        ⟨cfg2, ex2, h2, _, _, _⟩ | ⟨nxt, rest2, cfg2, hL, hnxt, h2, _, _, _, _⟩ |
        ⟨hL, _, _, _, _, _⟩
      · exact ih l02 hlen cfg2 ex2 out h2
      · rcases l02 with _ | ⟨y, l03⟩
        · rw [List.nil_append] at hL
          obtain ⟨rfl, rfl⟩ := List.cons.inj hL
          rcases hf with rfl | rfl
          · exact absurd hnxt (by decide)
          · exact absurd hnxt (by decide)
        · rw [List.cons_append] at hL
          obtain ⟨rfl, hrest⟩ := List.cons.inj hL
          have hlen2 : l03.length ≤ n := by
            simp at hl
            omega
          exact ih l03 hlen2 cfg2 ex out (hrest ▸ h2)
      · exact absurd hL (by simp)

/-- When the threads option is followed by an option marked token (so its
lookahead consumes nothing) and no later token can touch the threads
destination, a successful parse records the Python None as the threads
value. -/
theorem parseLoop_suffix_skip (f w : String) (post : List String)
    (hf : f = "-t" ∨ f = "--threads") (hw : looksLikeOption w = true)
    (hnr : ∀ u ∈ w :: post, threadsRelated u = false) (l0 : List String)
    (cfg : Config) (ex : Bool) (out : Config)
    (h : parseLoop (l0 ++ f :: w :: post) cfg ex = ParseOutcome.ok out) :
    out.threads = ThreadsVal.pyNone := by
  suffices H : ∀ (n : Nat) (l0 : List String), l0.length ≤ n → ∀ (cfg : Config) (ex : Bool)
      (out : Config), parseLoop (l0 ++ f :: w :: post) cfg ex = ParseOutcome.ok out →
      out.threads = ThreadsVal.pyNone from H l0.length l0 le_rfl cfg ex out h
  intro n
  induction n with
  | zero =>
    intro l0 hl cfg ex out h
    rcases l0 with _ | ⟨x, l02⟩
    · rcases hf with rfl | rfl
      · rw [List.nil_append, parseLoop_t_skip w post cfg ex hw] at h
        have h2 := parseLoop_ok_threads_preserved (w :: post) _ ex out h hnr
        simpa using h2
      · rw [List.nil_append, parseLoop_threads_skip w post cfg ex hw] at h
        have h2 := parseLoop_ok_threads_preserved (w :: post) _ ex out h hnr
        simpa using h2
    · simp at hl
  | succ n ih =>
    intro l0 hl cfg ex out h
    rcases l0 with _ | ⟨x, l02⟩
    · rcases hf with rfl | rfl
      · rw [List.nil_append, parseLoop_t_skip w post cfg ex hw] at h
        have h2 := parseLoop_ok_threads_preserved (w :: post) _ ex out h hnr
        simpa using h2
      · rw [List.nil_append, parseLoop_threads_skip w post cfg ex hw] at h
        have h2 := parseLoop_ok_threads_preserved (w :: post) _ ex out h hnr
        simpa using h2
    · have hlen : l02.length ≤ n := by
        simp at hl
        omega
      rw [List.cons_append] at h
      rcases parseLoop_cons_ok x (l02 ++ f :: w :: post) cfg ex out h with
        ⟨cfg2, ex2, h2, _, _, _⟩ | ⟨nxt, rest2, cfg2, hL, hnxt, h2, _, _, _, _⟩ |
        ⟨hL, _, _, _, _, _⟩
      · exact ih l02 hlen cfg2 ex2 out h2
      · rcases l02 with _ | ⟨y, l03⟩
        · rw [List.nil_append] at hL
          obtain ⟨rfl, rfl⟩ := List.cons.inj hL
          rcases hf with rfl | rfl
          · exact absurd hnxt (by decide)
          · exact absurd hnxt (by decide)
        · rw [List.cons_append] at hL
          obtain ⟨rfl, hrest⟩ := List.cons.inj hL
          have hlen2 : l03.length ≤ n := by
            simp at hl
            omega
          exact ih l03 hlen2 cfg2 ex out (hrest ▸ h2)
      · exact absurd hL (by simp)

/-- Claim C4: a thread count supplied as the value of the short or long
threads flag appears verbatim as the job count argument of the build
invocation, and when no threads related token is supplied at all the job
count defaults to 1. -/
theorem threads_value_verbatim_and_default :
    (∀ (pre : List String) (f v : String) (out : Config),
       (f = "-t" ∨ f = "--threads") → looksLikeOption v = false →
       parseArgs (pre ++ [f, v]) = ParseOutcome.ok out →
       out.threads = ThreadsVal.str v ∧
       buildArgs out = ["cmake", "-E", "env", "CLICOLOR_FORCE=1", "cmake", "--build",
         "build", "--", "-j" ++ v]) ∧
    (∀ (argv : List String) (out : Config),
       (∀ t ∈ argv, threadsRelated t = false) →
       parseArgs argv = ParseOutcome.ok out →
       out.threads = ThreadsVal.intDefault ∧
       buildArgs out = ["cmake", "-E", "env", "CLICOLOR_FORCE=1", "cmake", "--build",
         "build", "--", "-j1"]) := by
  constructor
  · intro pre f v out hf hv h
    rw [parseArgs] at h
    split at h
    · exact absurd h (by simp)
    · have ht := parseLoop_suffix_value f v hf hv pre initConfig false out h
      exact ⟨ht, by simp [buildArgs, ht, ThreadsVal.pyStr]⟩
  · intro argv out hnr h
    rw [parseArgs] at h
    split at h
    · exact absurd h (by simp)
    · have ht : out.threads = ThreadsVal.intDefault :=
        parseLoop_ok_threads_preserved argv initConfig false out h hnr
      exact ⟨ht, by simp [buildArgs, ht, ThreadsVal.pyStr]⟩

/-- Witness for claim C4 at two concrete runs. -/
theorem threads_value_verbatim_and_default_witness :
    (∃ out : Config, parseArgs ["--threads", "4"] = ParseOutcome.ok out ∧
       out.threads = ThreadsVal.str "4" ∧
       buildArgs out = ["cmake", "-E", "env", "CLICOLOR_FORCE=1", "cmake", "--build",
         "build", "--", "-j" ++ "4"]) ∧
    (∃ out : Config, parseArgs [] = ParseOutcome.ok out ∧
       out.threads = ThreadsVal.intDefault ∧
       buildArgs out = ["cmake", "-E", "env", "CLICOLOR_FORCE=1", "cmake", "--build",
         "build", "--", "-j1"]) := by
  constructor
  · have h : parseArgs ([] ++ ["--threads", "4"]) =
        ParseOutcome.ok { initConfig with threads := ThreadsVal.str "4" } := by decide
    have h2 := threads_value_verbatim_and_default.1 [] "--threads" "4" _ (Or.inr rfl)
      (by decide) h
    exact ⟨_, by simpa using h, h2.1, h2.2⟩
  · have h : parseArgs [] = ParseOutcome.ok initConfig := by decide
    have h2 := threads_value_verbatim_and_default.2 [] _ (by intro t ht; simp at ht) h
    exact ⟨_, h, h2.1, h2.2⟩

/-- Claim C9: supplying the short or the long threads flag without a
count (as the last token, or followed by a token argparse marks as an
option, with no later token able to touch the threads destination) parses
successfully with the threads value set to Python None rather than the
default 1, and the job count argument of the build invocation becomes the
literal string dash j None. -/
theorem threads_flag_without_count :
    (∀ (pre : List String) (f : String) (out : Config),
       (f = "-t" ∨ f = "--threads") →
       parseArgs (pre ++ [f]) = ParseOutcome.ok out →
       out.threads = ThreadsVal.pyNone ∧
       buildArgs out = ["cmake", "-E", "env", "CLICOLOR_FORCE=1", "cmake", "--build",
         "build", "--", "-jNone"]) ∧
    (∀ (pre : List String) (f w : String) (post : List String) (out : Config),
       (f = "-t" ∨ f = "--threads") → looksLikeOption w = true →
       (∀ u ∈ w :: post, threadsRelated u = false) →
       parseArgs (pre ++ f :: w :: post) = ParseOutcome.ok out →
       out.threads = ThreadsVal.pyNone ∧
       buildArgs out = ["cmake", "-E", "env", "CLICOLOR_FORCE=1", "cmake", "--build",
         "build", "--", "-jNone"]) := by
  constructor
  · intro pre f out hf h
    rw [parseArgs] at h
    split at h
    · exact absurd h (by simp)
    · have ht := parseLoop_suffix_alone f hf pre initConfig false out h
      exact ⟨ht, by simp [buildArgs, ht, ThreadsVal.pyStr]⟩
  · intro pre f w post out hf hw hnr h
    rw [parseArgs] at h
    split at h
    · exact absurd h (by simp)
    · have ht := parseLoop_suffix_skip f w post hf hw hnr pre initConfig false out h
      exact ⟨ht, by simp [buildArgs, ht, ThreadsVal.pyStr]⟩

/-- Witness for claim C9 at a trailing bare long flag and at a short flag
followed by another option token. -/
theorem threads_flag_without_count_witness :
    (∃ out : Config, parseArgs ["--threads"] = ParseOutcome.ok out ∧
       out.threads = ThreadsVal.pyNone ∧
       buildArgs out = ["cmake", "-E", "env", "CLICOLOR_FORCE=1", "cmake", "--build",
         "build", "--", "-jNone"]) ∧
    (∃ out : Config, parseArgs ["-t", "-c"] = ParseOutcome.ok out ∧
       out.threads = ThreadsVal.pyNone ∧
       buildArgs out = ["cmake", "-E", "env", "CLICOLOR_FORCE=1", "cmake", "--build",
         "build", "--", "-jNone"]) := by
  constructor
  · have h : parseArgs ([] ++ ["--threads"]) =
        ParseOutcome.ok { initConfig with threads := ThreadsVal.pyNone } := by decide
    have h2 := threads_flag_without_count.1 [] "--threads" _ (Or.inr rfl) h
    exact ⟨_, by simpa using h, h2.1, h2.2⟩
  · have h : parseArgs ([] ++ "-t" :: "-c" :: []) =
        ParseOutcome.ok
          { initConfig with configure := true, threads := ThreadsVal.pyNone } := by
      decide
    have h2 := threads_flag_without_count.2 [] "-t" "-c" [] _ (Or.inl rfl) (by decide)
      (by decide) h
    exact ⟨_, by simpa using h, h2.1, h2.2⟩

/-- Claim C7 (amended): an argument list containing an unrecognized flag
or a token whose explicit or attached option value is malformed never
produces a configuration value and never runs a subprocess; the parser
exits with a usage error, except that a token triggering the
automatically added help option makes it print the help text and exit
successfully instead, and when no token triggers help the outcome is
always the usage error. -/
theorem unrecognized_flag_rejected (argv : List String) (t : String)
    (ht : t ∈ argv)
    (hu : unrecognizedFlag t = true ∨ malformedValueToken t = true) :
    ((∃ m, parseArgs argv = ParseOutcome.usageError m) ∨
      parseArgs argv = ParseOutcome.helpExit) ∧
    (∀ cc bc, mainEvents argv cc bc = []) ∧
    ((∀ u ∈ argv, tokenTriggersHelp u = false) →
      ∃ m, parseArgs argv = ParseOutcome.usageError m) := by
  have hok : ∀ cfgo, parseArgs argv ≠ ParseOutcome.ok cfgo := by
    intro cfgo hk
    rw [parseArgs] at hk
    split at hk
    · simp at hk
    · have h2 := parseLoop_ok_no_unrecognized argv initConfig false cfgo hk t ht
      rcases hu with hu | hu
      · exact absurd h2.1 (by simp [hu])
      · exact absurd h2.2 (by simp [hu])
  refine ⟨?_, ?_, ?_⟩
  · cases hout : parseArgs argv with
    | ok cfg2 => exact absurd hout (hok cfg2)
    | helpExit => exact Or.inr rfl
    | usageError m => exact Or.inl ⟨m, rfl⟩
  · intro cc bc
    rw [mainEvents, scriptRun]
    cases hout : parseArgs argv with
    | ok cfg2 => exact absurd hout (hok cfg2)
    | helpExit => rfl
    | usageError m => rfl
  · intro hhelp
    cases hout : parseArgs argv with
    | ok cfg2 => exact absurd hout (hok cfg2)
    | usageError m => exact ⟨m, rfl⟩
    | helpExit =>
      rw [parseArgs] at hout
      split at hout
      · simp at hout
      · rcases parseLoop_help_mem argv initConfig false hout with ⟨u, hu2, htr⟩
        exact absurd htr (by simp [hhelp u hu2])

/-- Witness for claim C7 (amended) at a concrete run with only an
unrecognized flag. -/
theorem unrecognized_flag_rejected_witness :
    ((∃ m, parseArgs ["--bogus"] = ParseOutcome.usageError m) ∨
      parseArgs ["--bogus"] = ParseOutcome.helpExit) ∧
    (∀ cc bc, mainEvents ["--bogus"] cc bc = []) ∧
    ((∀ u ∈ ["--bogus"], tokenTriggersHelp u = false) →
      ∃ m, parseArgs ["--bogus"] = ParseOutcome.usageError m) :=
  unrecognized_flag_rejected ["--bogus"] "--bogus" (by decide) (Or.inl (by decide))

/-- Counterexample to claim C7 as stated: an argument list containing the
unrecognized flag together with the help flag makes the parser print help
and exit successfully with status 0 instead of failing with a usage
error. -/
theorem unrecognized_flag_help_counterexample :
    unrecognizedFlag "--bogus" = true ∧ "--bogus" ∈ ["--bogus", "-h"] ∧
    parseArgs ["--bogus", "-h"] = ParseOutcome.helpExit ∧
    (∀ m, parseArgs ["--bogus", "-h"] ≠ ParseOutcome.usageError m) ∧
    (scriptRun ["--bogus", "-h"] childNull childNull).wrapperExit = 0 := by
  refine ⟨by decide, by decide, by decide, ?_, by decide⟩
  intro m hm
  rw [show parseArgs ["--bogus", "-h"] = ParseOutcome.helpExit from by decide] at hm
  exact absurd hm (by simp)

end BuildScript
